import Mathlib

/-!
# nosqlite: a file-backed store driven by a textual command language

A shallow embedding of `table.h`, `db.h`, `user.h`, `helper.h` and the login
step of `main.cpp`.

* `std::string` is `String`; character-level work is done on `String.data`.
* A function that can raise a C++ exception returns an `Outcome`.
* The file system, the objects reached through `std::shared_ptr`, and the
  console input are explicit components of the state that the functions pass
  along.  Text written to `std::cout` / `std::cerr` is not recorded.
-/

namespace NoSqlite

/-! ## Exceptions and outcomes -/

/-- The failures that the embedded code can raise. -/
inductive Exn where
  /-- Raised as `std::out_of_range` (by `substr`; by `stoi` on overflow). -/
  | out_of_range
  /-- Raised as `std::invalid_argument` (by `stoi` when nothing converts). -/
  | invalid_argument
  /-- Raised as `std::filesystem::filesystem_error`. -/
  | filesystem_error
  /-- A member access through a null `std::shared_ptr`. -/
  | null_dereference
  deriving DecidableEq, Repr

/-- Either the value a call returns or the exception it raises. -/
inductive Outcome (α : Type) where
  | ok (value : α)
  | raised (e : Exn)
  deriving DecidableEq, Repr

/-! ## `std::string` and stream primitives -/

/-- The constant `std::string::npos`, the largest `size_t`. -/
def npos : Nat := 2 ^ 64 - 1

/-- Call `str.substr(pos, n)`: raises `std::out_of_range` when `pos > size()`,
otherwise the at most `n` characters from position `pos`. -/
def substr (str : String) (pos n : Nat) : Outcome String :=
  if pos > str.length then .raised .out_of_range
  else .ok ⟨(str.data.drop pos).take n⟩

/-- Call `str.substr(pos)`: the count defaults to `npos`, which no size
exceeds, so the result is all that follows position `pos`. -/
def substrFrom (str : String) (pos : Nat) : Outcome String :=
  if pos > str.length then .raised .out_of_range
  else .ok ⟨str.data.drop pos⟩

/-- Call `str.find(ch)`: the first index holding `ch`, `none` for `npos`. -/
def findChar (ch : Char) : List Char → Option Nat
  | [] => none
  | c :: cs => if c = ch then some 0 else (findChar ch cs).map (· + 1)

/-- Call `str.find_first_not_of(set)`: `none` stands for `npos`. -/
def find_first_not_of (set : List Char) : List Char → Option Nat
  | [] => none
  | c :: cs => if c ∈ set then (find_first_not_of set cs).map (· + 1) else some 0

/-- Call `str.find_last_not_of(set)`: `none` stands for `npos`. -/
def find_last_not_of (set : List Char) (s : List Char) : Option Nat :=
  (find_first_not_of set s.reverse).map (fun k => s.length - 1 - k)

/-- The tokens read by `while (std::getline(stream, token, delim))` from a
stream holding the given characters.  A delimiter ends the current token; the
end of input ends it too, but a read that meets the end of input before any
character yields no token and stops the loop.  So `a,b` gives `a`, `b`;
`a,` gives `a` alone; the empty stream gives nothing. -/
def getlineAll (delim : Char) : List Char → List (List Char)
  | [] => []
  | c :: cs =>
    if c = delim then [] :: getlineAll delim cs
    else
      match getlineAll delim cs with
      | [] => [[c]]
      | t :: ts => (c :: t) :: ts

/-- The characters `" \t\n\r"` that `trim` strips. -/
def trimSet : List Char := [' ', '\t', '\n', '\r']

/-- Function `QueryHelper::trim` (helper.h:45). -/
def trim (str : String) : String :=
  match find_first_not_of trimSet str.data with
  | none => ""
  | some first =>
    let last := (find_last_not_of trimSet str.data).getD npos
    -- `first <= size()`, so this `substr` cannot raise
    ⟨(str.data.drop first).take (last - first + 1)⟩

/-- Function `QueryHelper::split` (helper.h:20): the `getline` tokens, each
trimmed. -/
def split (str : String) (delim : Char) : List String :=
  (getlineAll delim str.data).map (fun token => trim ⟨token⟩)

/-- Function `QueryHelper::parseAttributeList` (helper.h:33).  The count
`str.length() - 2` is computed in `size_t`, so it wraps for a string shorter
than two characters. -/
def parseAttributeList (str : String) : Outcome (List String) :=
  match substr str 1 ((str.length + 2 ^ 64 - 2) % 2 ^ 64) with
  | .raised e => .raised e
  | .ok cleaned => .ok (split cleaned ',')

/-- The transformation `std::transform(..., ::tolower)` of executeQuery. -/
def toLowerStr (s : String) : String := ⟨s.data.map Char.toLower⟩

/-- The white space that `strtol` skips (`isspace` in the C locale). -/
def isspace (c : Char) : Bool :=
  c = ' ' || c = '\t' || c = '\n' || c = '\r' || c = Char.ofNat 11 || c = Char.ofNat 12

/-- Call `std::stoi(str)`: skips leading white space, reads an optional sign
and the longest run of decimal digits; raises `std::invalid_argument` when
there is no digit and `std::out_of_range` when the value is no `int`. -/
def stoi (str : String) : Outcome Int :=
  let cs := str.data.dropWhile isspace
  let signed : Bool × List Char :=
    match cs with
    | '-' :: rest => (true, rest)
    | '+' :: rest => (false, rest)
    | rest => (false, rest)
  let digits := signed.2.takeWhile Char.isDigit
  if digits.isEmpty then .raised .invalid_argument
  else
    let magnitude : Int := digits.foldl (fun acc d => 10 * acc + ((d.toNat - 48 : Nat) : Int)) 0
    let value : Int := if signed.1 then -magnitude else magnitude
    if value < -(2 : Int) ^ 31 ∨ value > (2 : Int) ^ 31 - 1 then .raised .out_of_range
    else .ok value

/-! ## Integer conversions of the select window -/

/-- The `size_t` value of `rows.size() - limit`, where the `int` operand is
converted to `size_t` and the subtraction is modulo `2^64`. -/
def sizeMinusInt (size : Nat) (limit : Int) : Nat :=
  (((size : Int) - limit) % (2 : Int) ^ 64).toNat

/-- Conversion `static_cast<int>(x)` of a `size_t`: the low 32 bits read as a
two's complement number. -/
def static_cast_int (x : Nat) : Int :=
  if x % 2 ^ 32 < 2 ^ 31 then ((x % 2 ^ 32 : Nat) : Int)
  else ((x % 2 ^ 32 : Nat) : Int) - (2 : Int) ^ 32

/-- The row-window step of `QueryHelper::handleSelect` (helper.h:327-360),
run once the file has been read into `headerLine` and `rows`.  `limit` is the
`int` of the source, `-1` when no limit was parsed.  The counting loops are
the index ranges they run through; they stay within `int` as long as the
number of rows does. -/
def selectWindow (headerLine : String) (rows : List String) (limit : Int) (last : Bool) :
    String :=
  let result := headerLine ++ "\n"
  if limit = -1 then
    rows.foldl (fun res r => res ++ r ++ "\n") result
  else if last then
    let startIndex : Int := max 0 (static_cast_int (sizeMinusInt rows.length limit))
    (List.range' startIndex.toNat (rows.length - startIndex.toNat)).foldl
      (fun res i => res ++ rows.getD i "" ++ "\n") result
  else
    let bound : Int := min limit (static_cast_int rows.length)
    (List.range bound.toNat).foldl (fun res i => res ++ rows.getD i "" ++ "\n") result

/-- The text of a header line followed by the given row lines, each line
ended by a newline: how the spec describes the output of select. -/
def headerThenRows (headerLine : String) (rows : List String) : String :=
  headerLine ++ "\n" ++ String.join (rows.map (fun r => r ++ "\n"))

/-! ## The file system

The program reaches its storage only through `std::ifstream`, `std::ofstream`
and `std::filesystem`.  The model keeps the directories and the regular files
of the working directory, each under the list of its path components.  It
leaves out permissions and links, and it reads `..` as an ordinary name.  The
order in which a directory is iterated, unspecified in C++, is the order of
the `files` list.
-/

/-- The directories and the regular files (with their content) below the
working directory. -/
structure FS where
  dirs : List (List String)
  files : List (List String × String)
  deriving DecidableEq, Repr

/-- The components of a path: the pieces between `/`, without the empty ones
and without `.`. -/
def pathComponents (path : String) : List String :=
  ((getlineAll '/' path.data).filter (fun c => c ≠ [] ∧ c ≠ ['.'])).map String.mk

/-- Whether the path is written with a final `/`, which only a directory
satisfies. -/
def endsWithSlash (path : String) : Bool := path.data.getLast? = some '/'

/-- The components name a directory; the working directory always is one. -/
def FS.isDir (fs : FS) (p : List String) : Bool := p = [] || p ∈ fs.dirs

/-- The content of the regular file under the components, if there is one. -/
def FS.content (fs : FS) (p : List String) : Option String :=
  if fs.isDir p then none else (fs.files.find? (fun e => e.1 = p)).map Prod.snd

/-- The components name a regular file. -/
def FS.isFile (fs : FS) (p : List String) : Bool := (fs.content p).isSome

/-- Call `std::filesystem::exists(path)`. -/
def FS.fsExists (fs : FS) (path : String) : Bool :=
  if endsWithSlash path then fs.isDir (pathComponents path)
  else fs.isDir (pathComponents path) || fs.isFile (pathComponents path)

/-- What `std::ifstream file(path)` can read, `none` when `is_open()` is
false.  A regular file gives its content.  A directory opens as well (on
Linux `open` for reading succeeds on it), but every read from it fails, so it
reads like an empty file: `getline` leaves its string empty.  The empty path
names nothing. -/
def FS.openRead (fs : FS) (path : String) : Option String :=
  if path = "" then none
  else if fs.isDir (pathComponents path) then some ""
  else if endsWithSlash path then none
  else fs.content (pathComponents path)

/-- Whether `std::ofstream file(path, mode)` opens, for `out` and for `app`
alike: the path names no directory and its parent directory exists. -/
def FS.canOpenWrite (fs : FS) (path : String) : Bool :=
  !endsWithSlash path && pathComponents path ≠ [] && !fs.isDir (pathComponents path)
    && fs.isDir (pathComponents path).dropLast

/-- The file system in which the file under `p` has the given content. -/
def FS.setFile (fs : FS) (p : List String) (content : String) : FS :=
  { fs with files := fs.files.filter (fun e => e.1 ≠ p) ++ [(p, content)] }

/-- Effect of `std::ofstream file(path, std::ios::out)` followed by writing
`text` and closing, when the stream opens: the file holds exactly `text`. -/
def FS.writeFile (fs : FS) (path : String) (text : String) : FS :=
  fs.setFile (pathComponents path) text

/-- Effect of `std::ofstream file(path, std::ios::app)` followed by writing
`text`, when the stream opens: `text` is added after the old content (after
nothing when the file is new). -/
def FS.appendFile (fs : FS) (path : String) (text : String) : FS :=
  fs.setFile (pathComponents path) (((fs.content (pathComponents path)).getD "") ++ text)

/-- Call `std::filesystem::create_directory(path)`: `false` when the
directory is there already, an exception when the name is taken by a file or
the parent directory is missing. -/
def FS.create_directory (fs : FS) (path : String) : Outcome Bool × FS :=
  let p := pathComponents path
  if fs.isDir p then (.ok false, fs)
  else if fs.isFile p || !fs.isDir p.dropLast then (.raised .filesystem_error, fs)
  else (.ok true, { fs with dirs := fs.dirs ++ [p] })

/-- The non-empty prefixes of a component list, shortest first. -/
def pathPrefixes (p : List String) : List (List String) :=
  (List.range p.length).map (fun k => p.take (k + 1))

/-- Creation of the directory under the components `p` and of every missing
directory above it: an exception when a regular file is in the way. -/
def FS.mkdirs (fs : FS) (p : List String) : Outcome Unit × FS :=
  if (pathPrefixes p).any fs.isFile then (.raised .filesystem_error, fs)
  else (.ok (), { fs with dirs := fs.dirs ++ (pathPrefixes p).filter (fun d => !fs.isDir d) })

/-- Call `std::filesystem::create_directories(path)`. -/
def FS.create_directories (fs : FS) (path : String) : Outcome Unit × FS :=
  fs.mkdirs (pathComponents path)

/-- Some entry lies strictly below the directory `p`. -/
def FS.hasEntriesBelow (fs : FS) (p : List String) : Bool :=
  fs.dirs.any (fun d => p.isPrefixOf d && d ≠ p) || fs.files.any (fun e => p.isPrefixOf e.1 && e.1 ≠ p)

/-- Call `std::filesystem::remove(path)`: deletes a regular file or an empty
directory, raises on a directory that is not empty, and returns `false` when
nothing is there. -/
def FS.remove (fs : FS) (path : String) : Outcome Bool × FS :=
  let p := pathComponents path
  if fs.isFile p then (.ok true, { fs with files := fs.files.filter (fun e => e.1 ≠ p) })
  else if p ∈ fs.dirs then
    if fs.hasEntriesBelow p then (.raised .filesystem_error, fs)
    else (.ok true, { fs with dirs := fs.dirs.filter (fun d => d ≠ p) })
  else (.ok false, fs)

/-- Call `std::filesystem::remove_all(path)`: deletes the entry and all that
lies below it. -/
def FS.remove_all (fs : FS) (path : String) : FS :=
  let p := pathComponents path
  { dirs := fs.dirs.filter (fun d => !p.isPrefixOf d),
    files := fs.files.filter (fun e => !p.isPrefixOf e.1) }

/-- The names of the regular files that `std::filesystem::directory_iterator`
meets in the directory `p`. -/
def FS.regularFilesIn (fs : FS) (p : List String) : List String :=
  (fs.files.filter (fun e => e.1 ≠ [] ∧ e.1.dropLast = p ∧ !fs.isDir e.1)).map
    (fun e => e.1.getLast?.getD "")

/-- The position where `path::extension()` starts in a file name: that of its
last dot, unless this is the first character or the name is `.` or `..`. -/
def extensionStart (fname : List Char) : Option Nat :=
  if fname = ['.'] ∨ fname = ['.', '.'] then none
  else
    match findChar '.' fname.reverse with
    | none => none
    | some k => if fname.length - 1 - k = 0 then none else some (fname.length - 1 - k)

/-- Call `path::extension()` on a file name. -/
def extension (fname : String) : String :=
  match extensionStart fname.data with
  | none => ""
  | some k => ⟨fname.data.drop k⟩

/-- Call `path::stem()` on a file name. -/
def stem (fname : String) : String :=
  match extensionStart fname.data with
  | none => fname
  | some k => ⟨fname.data.take k⟩

/-- The lines that successive `std::getline(file, line)` calls read from a
file with the given content. -/
def fileLines (content : String) : List String :=
  (getlineAll '\n' content.data).map String.mk

/-! ## `table.h` -/

/-- Class `Table`. -/
structure Table where
  name : String
  schema : List String
  filePath : String
  deriving DecidableEq, Repr

/-- Constructor `Table::Table` (table.h:39). -/
def Table.new (tableName : String) (tableSchema : List String) (basePath : String) : Table :=
  { name := tableName, schema := tableSchema, filePath := basePath ++ tableName ++ ".csv" }

/-- The alphabet `chars` of `generateUniqueId`. -/
def idAlphabet : List Char := "0123456789abcdefghijklmnopqrstuvwxyz".data

/-- Function `Table::generateUniqueId` (table.h:19).  The generator is seeded
from the clock, so the draws are an input: `dis i` is the value that the
`i`-th call `dis(gen)` returns, which `std::uniform_int_distribution<>(0, 35)`
keeps within `0..35`. -/
def generateUniqueId (dis : Nat → Fin 36) : String :=
  ⟨(List.range 12).map (fun i => idAlphabet.getD (dis i).val '0')⟩

/-- The text `file << first; for (field : fields) file << "," << field;
file << std::endl` puts on the stream. -/
def csvLine (first : String) (fields : List String) : String :=
  fields.foldl (fun acc field => acc ++ "," ++ field) first ++ "\n"

/-- Function `Table::initialize` (table.h:49): the result and the file system
it leaves. -/
def Table.initialize (t : Table) (fs : FS) : Bool × FS :=
  if t.schema.isEmpty then (false, fs)
  else
    -- `create_directories(path(filePath).parent_path())`
    match fs.mkdirs (pathComponents t.filePath).dropLast with
    | (.raised _, fs1) => (false, fs1)
    | (.ok _, fs1) =>
      if !fs1.canOpenWrite t.filePath then (false, fs1)
      else (true, fs1.writeFile t.filePath (csvLine "unique_id" t.schema))

/-- Function `Table::load` (table.h:85): the result and the table with the
schema read from the header. -/
def Table.load (t : Table) (fs : FS) : Bool × Table :=
  match fs.openRead t.filePath with
  | none => (false, t)
  | some content =>
    let header : String := (fileLines content).headD ""
    -- one `getline(ss, field, ',')` skips `unique_id`, the loop reads the rest
    let fields := ((getlineAll ',' header.data).drop 1).map String.mk
    (!fields.isEmpty, { t with schema := fields })

/-- Function `Table::insertRow` (table.h:110): the result and the file system
it leaves. -/
def Table.insertRow (dis : Nat → Fin 36) (t : Table) (data : List String) (fs : FS) :
    Bool × FS :=
  if data.length ≠ t.schema.length then (false, fs)
  else if !fs.canOpenWrite t.filePath then (false, fs)
  else (true, fs.appendFile t.filePath (csvLine (generateUniqueId dis) data))

/-! ## `db.h` -/

/-- Class `Database`. -/
structure Database where
  name : String
  owner : String
  tables : List Table
  basePath : String
  deriving DecidableEq, Repr

/-- Function `Database::loadExistingTables` (db.h:65): the tables found in
the directory `basePath`, in the order of iteration. -/
def loadExistingTables (basePath : String) (fs : FS) : List Table :=
  if !fs.fsExists basePath then []
  else
    (fs.regularFilesIn (pathComponents basePath)).filterMap (fun fname =>
      if extension fname = ".csv" then
        let loaded := (Table.new (stem fname) [] basePath).load fs
        if loaded.1 then some loaded.2 else none
      else none)

/-- Constructor `Database::Database` (db.h:21). -/
def Database.new (dbName ownerName : String) (fs : FS) : Database :=
  let basePath := "database/" ++ ownerName ++ "/" ++ dbName ++ "/"
  { name := dbName, owner := ownerName, tables := loadExistingTables basePath fs,
    basePath := basePath }

/-- Function `Database::createTable` (db.h:32): the result, the database and
the file system it leaves. -/
def Database.createTable (db : Database) (tableName : String) (schema : List String) (fs : FS) :
    Bool × Database × FS :=
  match fs.create_directories db.basePath with
  | (.raised _, fs1) => (false, db, fs1)
  | (.ok _, fs1) =>
    let newTable := Table.new tableName schema db.basePath
    match newTable.initialize fs1 with
    | (true, fs2) => (true, { db with tables := db.tables ++ [newTable] }, fs2)
    | (false, fs2) => (false, db, fs2)

/-- Function `Database::getTable` (db.h:54): `none` is the null pointer. -/
def Database.getTable (db : Database) (tableName : String) : Option Table :=
  db.tables.find? (fun table => table.name = tableName)

/-! ## `user.h`

A `std::shared_ptr<Database>` is the index of the object in `heap`, the list
of the `Database` objects made so far.  The `unordered_map` of a user is a
list of entries with distinct keys; its iteration order, unspecified in C++,
is the list order.
-/

/-- Class `User`. -/
structure User where
  name : String
  password : String
  databases : List (String × Nat)
  deriving DecidableEq, Repr

/-- Assignment `databases[key] = value` on the map. -/
def mapAssign (m : List (String × Nat)) (key : String) (value : Nat) : List (String × Nat) :=
  if m.any (fun e => e.1 = key) then m.map (fun e => if e.1 = key then (key, value) else e)
  else m ++ [(key, value)]

/-- The text an `std::ofstream` leaves in the file it was given: nothing
changes when it did not open. -/
def FS.writeIfOpen (fs : FS) (path : String) (text : String) : FS :=
  if fs.canOpenWrite path then fs.writeFile path text else fs

/-- Function `User::initializeAdminIfNeeded` (user.h:18): the file system it
leaves, and the exception if a directory creation raises. -/
def initializeAdminIfNeeded (fs : FS) : Outcome Unit × FS :=
  let step1 : Outcome Unit × FS :=
    if !fs.fsExists "account" then
      match fs.create_directory "account" with
      | (.raised e, fs1) => (.raised e, fs1)
      | (.ok _, fs1) => (.ok (), fs1)
    else (.ok (), fs)
  match step1 with
  | (.raised e, fs1) => (.raised e, fs1)
  | (.ok _, fs1) =>
    if !fs1.fsExists "account/users.csv" then
      let fs2 := fs1.writeIfOpen "account/users.csv" "admin\n"
      match fs2.create_directory "account/admin" with
      | (.raised e, fs3) => (.raised e, fs3)
      | (.ok _, fs3) =>
        let fs4 := fs3.writeIfOpen "account/admin/admin.csv" "admin\ndefault\n"
        fs4.create_directories "database/admin/default"
    else (.ok (), fs1)

/-- Constructor `User::User` (user.h:53). -/
def User.new (fs : FS) : Outcome User × FS :=
  match initializeAdminIfNeeded fs with
  | (.raised e, fs1) => (.raised e, fs1)
  | (.ok _, fs1) => (.ok { name := "", password := "", databases := [] }, fs1)

/-- The path `"account/" + name + "/" + name + ".csv"` of a credential file. -/
def userFilePath (name : String) : String := "account/" ++ name ++ "/" ++ name ++ ".csv"

/-- Function `User::verifyCredentials` (user.h:160). -/
def verifyCredentials (fs : FS) (inputName inputPassword : String) : Bool :=
  match fs.openRead (userFilePath inputName) with
  | none => false
  | some content => (fileLines content).headD "" = inputPassword

/-- Function `User::hasDatabaseAccess` (user.h:118). -/
def User.hasDatabaseAccess (u : User) (dbName : String) : Bool :=
  u.databases.any (fun e => e.1 = dbName)

/-- Function `User::getDatabase` (user.h:123): `none` is the null pointer. -/
def User.getDatabase (u : User) (dbName : String) : Option Nat :=
  (u.databases.find? (fun e => e.1 = dbName)).map Prod.snd

/-- Function `User::updateUserDatabases` (user.h:223). -/
def User.updateUserDatabases (u : User) (fs : FS) : Bool × FS :=
  if !fs.canOpenWrite (userFilePath u.name) then (false, fs)
  else
    (true, fs.writeFile (userFilePath u.name)
      (u.password ++ "\n" ++ String.intercalate "," (u.databases.map Prod.fst) ++ "\n"))

/-- Function `User::createDatabase` (user.h:134): the result, the user, the
file system and the heap it leaves. -/
def User.createDatabase (u : User) (dbName : String) (fs : FS) (heap : List Database) :
    Bool × User × FS × List Database :=
  if u.hasDatabaseAccess dbName then (false, u, fs, heap)
  else
    let db := Database.new dbName u.name fs
    let u1 := { u with databases := mapAssign u.databases dbName heap.length }
    let written := u1.updateUserDatabases fs
    (written.1, u1, written.2, heap ++ [db])

/-- The two `erase` calls of `loadDatabases` (user.h:198-199), which strip the
spaces at both ends of a name. -/
def eraseSpaces (dbName : List Char) : List Char :=
  let erased1 :=
    match find_first_not_of [' '] dbName with
    | none => []
    | some k => dbName.drop k
  match find_last_not_of [' '] erased1 with
  | none => []
  | some k => erased1.take (k + 1)

/-- Function `User::loadDatabases` (user.h:173). -/
def User.loadDatabases (u : User) (fs : FS) (heap : List Database) :
    User × FS × List Database :=
  match fs.openRead (userFilePath u.name) with
  | none => (u, fs, heap)
  | some content =>
    let dbLine : String := (fileLines content).getD 1 ""
    let names := ((getlineAll ',' dbLine.data).map eraseSpaces).filter (fun n => n ≠ [])
    let loaded : User × List Database :=
      names.foldl (fun acc dbName =>
        ({ acc.1 with databases := mapAssign acc.1.databases ⟨dbName⟩ acc.2.length },
          acc.2 ++ [Database.new ⟨dbName⟩ u.name fs])) (u, heap)
    if u.name = "admin" ∧ loaded.1.databases.isEmpty then
      let created := loaded.1.createDatabase "default" fs loaded.2
      (created.2.1, created.2.2.1, created.2.2.2)
    else (loaded.1, fs, loaded.2)

/-- Function `User::login` (user.h:64): the result, the user, the file system
and the heap it leaves. -/
def User.login (u : User) (inputName inputPassword : String) (fs : FS) (heap : List Database) :
    Outcome Bool × User × FS × List Database :=
  match initializeAdminIfNeeded fs with
  | (.raised e, fs1) => (.raised e, u, fs1, heap)
  | (.ok _, fs1) =>
    if !verifyCredentials fs1 inputName inputPassword then (.ok false, u, fs1, heap)
    else
      let loaded := ({ u with name := inputName, password := inputPassword }).loadDatabases fs1 heap
      (.ok true, loaded.1, loaded.2.1, loaded.2.2)

/-! ## `helper.h`: the command interpreter -/

/-- The `QueryHelper` object together with what it works on: the file system,
the `Database` objects that shared pointers refer to, and the lines still to
be read from `std::cin`.  `currentUser` and `currentDatabase` are the two
members of the class, `none` being the null pointer. -/
structure State where
  fs : FS
  heap : List Database
  stdin : List String
  currentUser : Option User
  currentDatabase : Option Nat
  deriving DecidableEq, Repr

/-- Constructor `QueryHelper::QueryHelper` (helper.h:42), run on a file
system with the given console input: `currentUser` is a new `User`, never
null, and no database is open. -/
def QueryHelper.new (fs : FS) (stdin : List String) : Outcome State :=
  match User.new fs with
  | (.raised e, _) => .raised e
  | (.ok u, fs1) =>
    .ok { fs := fs1, heap := [], stdin := stdin, currentUser := some u, currentDatabase := none }

/-- Function `QueryHelper::handleLogin` (helper.h:143). -/
def handleLogin (s : State) (params : String) : Outcome String × State :=
  if params ≠ "" then (.ok "Usage: login", s)
  else
    let username := s.stdin.headD ""
    let password := (s.stdin.drop 1).headD ""
    let s1 := { s with stdin := s.stdin.drop 2 }
    match s.currentUser with
    | none => (.raised .null_dereference, s1)
    | some u =>
      let r := u.login username password s.fs s.heap
      let s2 := { s1 with currentUser := some r.2.1, fs := r.2.2.1, heap := r.2.2.2 }
      match r.1 with
      | .raised e => (.raised e, s2)
      | .ok true => (.ok ("Successfully logged in as " ++ username), s2)
      | .ok false => (.ok "Login failed", s2)

/-- The text that `handleShow` builds from the names it iterates over. -/
def showListing (names : List String) : String :=
  names.foldl (fun res name => res ++ "- " ++ name ++ "\n") "Available databases:\n"

/-- Function `QueryHelper::handleShow` (helper.h:164). -/
def handleShow (u : User) : String :=
  showListing (u.databases.map Prod.fst)

/-- Function `QueryHelper::handleCreateDatabase` (helper.h:175). -/
def handleCreateDatabase (s : State) (u : User) (dbName : String) : Outcome String × State :=
  let r := u.createDatabase (trim dbName) s.fs s.heap
  let s1 := { s with currentUser := some r.2.1, fs := r.2.2.1, heap := r.2.2.2 }
  if r.1 then (.ok ("Database '" ++ dbName ++ "' created successfully"), s1)
  else (.ok "Failed to create database", s1)

/-- Function `QueryHelper::handleOpenDatabase` (helper.h:184). -/
def handleOpenDatabase (s : State) (u : User) (dbName : String) : Outcome String × State :=
  let name := trim dbName
  match u.getDatabase name with
  | none => (.ok "Database not found or access denied", s)
  | some ptr =>
    match s.heap[ptr]? with
    | none => (.raised .null_dereference, { s with currentDatabase := some ptr })
    | some db =>
      (.ok (db.tables.foldl (fun res table => res ++ "- " ++ table.name ++ "\n")
          ("Opened database '" ++ name ++ "'\n" ++ "Available tables:\n")),
        { s with currentDatabase := some ptr })

/-- Function `QueryHelper::handleCreateTable` (helper.h:203), for the open
database `db` stored at `ptr`. -/
def handleCreateTable (s : State) (ptr : Nat) (db : Database) (params : String) :
    Outcome String × State :=
  match findChar '(' params.data with
  | none => (.ok "Invalid syntax. Use: create table name (attr1, attr2, ...)", s)
  | some parensStart =>
    match substr params 0 parensStart, substrFrom params parensStart with
    | .ok beforeParens, .ok attrList =>
      let tableName := trim beforeParens
      match parseAttributeList attrList with
      | .raised e => (.raised e, s)
      | .ok attributes =>
        match db.createTable tableName attributes s.fs with
        | (true, db1, fs1) =>
          (.ok ("Table '" ++ tableName ++ "' created successfully"),
            { s with fs := fs1, heap := s.heap.set ptr db1 })
        | (false, db1, fs1) =>
          (.ok "Failed to create table", { s with fs := fs1, heap := s.heap.set ptr db1 })
    | .raised e, _ => (.raised e, s)
    | _, .raised e => (.raised e, s)

/-- Function `QueryHelper::handleInsert` (helper.h:225), for the open
database `db`. -/
def handleInsert (dis : Nat → Fin 36) (s : State) (db : Database) (params : String) :
    Outcome String × State :=
  match findChar '(' params.data with
  | none => (.ok "Invalid syntax. Use: insert into table_name (value1, value2, ...)", s)
  | some parensStart =>
    match substr params 0 parensStart, substrFrom params parensStart with
    | .ok beforeParens, .ok valueList =>
      let tableName := trim beforeParens
      match parseAttributeList valueList with
      | .raised e => (.raised e, s)
      | .ok values =>
        match db.getTable tableName with
        | none => (.ok "Table not found", s)
        | some table =>
          match table.insertRow dis values s.fs with
          | (true, fs1) => (.ok "", { s with fs := fs1 })
          | (false, fs1) => (.ok "Failed to insert data", { s with fs := fs1 })
    | .raised e, _ => (.raised e, s)
    | _, .raised e => (.raised e, s)

/-- Function `QueryHelper::handleDelete` (helper.h:250), for the open
database `db`. -/
def handleDelete (s : State) (db : Database) (params : String) : Outcome String × State :=
  let parts := split params ' '
  if parts.length ≠ 2 ∨ substr (parts.getD 1 "") 0 3 ≠ .ok "id:" then
    (.ok "Invalid syntax. Use: delete from table_name id:value", s)
  else
    match db.getTable (parts.getD 0 "") with
    | none => (.ok "Table not found", s)
    | some _ => (.ok "Record deleted successfully", s)

/-- The parsing of `[limit] [last]` in `handleSelect` (helper.h:280-300). -/
def parseLimitLast (parts : List String) : Int × Bool :=
  if parts.length > 1 then
    match stoi (parts.getD 1 "") with
    | .ok limit => (limit, decide (parts.length > 2 ∧ parts.getD 2 "" = "last"))
    | .raised _ => (-1, decide (parts.getD 1 "" = "last"))
  else (-1, false)

/-- Function `QueryHelper::handleSelect` (helper.h:271), for the open
database `db`. -/
def handleSelect (s : State) (db : Database) (params : String) : Outcome String × State :=
  let parts := split params ' '
  if parts.isEmpty then
    (.ok "Invalid syntax. Use: select from table_name [limit] [last]", s)
  else
    let tableName := parts.getD 0 ""
    let limitLast := parseLimitLast parts
    match db.getTable tableName with
    | none => (.ok "Table not found", s)
    | some _ =>
      match s.fs.openRead (db.name ++ "/" ++ tableName ++ ".csv") with
      | none => (.ok "Failed to open table file", s)
      | some content =>
        let headerLine := (fileLines content).headD ""
        let rows := (fileLines content).drop 1
        (.ok (selectWindow headerLine rows limitLast.1 limitLast.2), s)

/-- The text of `e.what()` for the exception that `std::filesystem::remove`
raises, which the C++ library words. -/
def removeErrorWhat (filePath : String) : String :=
  "filesystem error: cannot remove: Directory not empty [" ++ filePath ++ "]"

/-- Function `QueryHelper::handleDropTable` (helper.h:363), for the session
user `u` and the open database `db` stored at `ptr`. -/
def handleDropTable (s : State) (u : User) (ptr : Nat) (db : Database) (tableName : String) :
    Outcome String × State :=
  let name := trim tableName
  match db.getTable name with
  | none => (.ok ("Table '" ++ name ++ "' not found"), s)
  | some _ =>
    let filePath := "database/" ++ u.name ++ "/" ++ db.name ++ "/" ++ name ++ ".csv"
    if s.fs.fsExists filePath then
      match s.fs.remove filePath with
      | (.raised _, fs1) =>
        (.ok ("Failed to drop table. Error: " ++ removeErrorWhat filePath), { s with fs := fs1 })
      | (.ok _, fs1) =>
        (.ok ("Table '" ++ name ++ "' dropped successfully"),
          { s with fs := fs1,
                   heap := s.heap.set ptr
                     { db with tables := db.tables.filter (fun t => t.name ≠ name) } })
    else (.ok "Table file not found", s)

/-- Function `QueryHelper::handleDropDatabase` (helper.h:421), for the
session user `u`. -/
def handleDropDatabase (s : State) (u : User) (dbName : String) : Outcome String × State :=
  let name := trim dbName
  if !u.hasDatabaseAccess name then
    (.ok ("Database '" ++ name ++ "' not found or access denied"), s)
  else
    let dbPath := "database/" ++ u.name ++ "/" ++ name
    if s.fs.fsExists dbPath then
      let s1 := { s with fs := s.fs.remove_all dbPath }
      match s1.currentDatabase with
      | none => (.ok "Failed to Drop", s1)
      | some ptr =>
        match s1.heap[ptr]? with
        | none => (.raised .null_dereference, s1)
        | some db =>
          if db.name = name then (.ok "Failed to Drop", { s1 with currentDatabase := none })
          else (.ok "Failed to Drop", s1)
    else (.ok "Database directory not found", s)

/-- Continue with the value of a `substr` call, or leave with the exception
it raised. -/
def orRaise {α : Type} (o : Outcome α) (s : State) (k : α → Outcome String × State) :
    Outcome String × State :=
  match o with
  | .raised e => (.raised e, s)
  | .ok a => k a

/-- Run a handler on the open database: the object behind the non-null
`currentDatabase`. -/
def withDatabase (s : State) (ptr : Nat) (k : Database → Outcome String × State) :
    Outcome String × State :=
  match s.heap[ptr]? with
  | none => (.raised .null_dereference, s)
  | some db => k db

/-- The query after `trim` and after the removal of one final semicolon
(helper.h:57-65); `none` when the trimmed query is empty. -/
def normalizeQuery (query : String) : Option String :=
  let q := trim query
  if q = "" then none
  else if q.data.getLast? = some ';' then some ⟨q.data.take (q.length - 1)⟩
  else some q

/-- Function `QueryHelper::executeQuery` (helper.h:55): the result string or
the exception that leaves the function, and the state afterwards.  `dis`
gives the random draws of an insert. -/
def executeQuery (dis : Nat → Fin 36) (s : State) (query : String) : Outcome String × State :=
  match normalizeQuery query with
  | none => (.ok "Empty query", s)
  | some q =>
    let lowerQuery := toLowerStr q
    if substr lowerQuery 0 5 = .ok "login" then
      orRaise (substrFrom q 5) s (fun params => handleLogin s params)
    else
      match s.currentUser with
      | none => (.ok "Not logged in. Please login first.", s)
      | some u =>
        if lowerQuery = "show" then (.ok (handleShow u), s)
        else if substr lowerQuery 0 6 = .ok "create" then
          orRaise (substr lowerQuery 7 5) s (fun word =>
            -- `word == "table" && currentDatabase`
            match (if word = "table" then s.currentDatabase else none) with
            | some ptr =>
              orRaise (substrFrom q 13) s (fun params =>
                withDatabase s ptr (fun db => handleCreateTable s ptr db params))
            | none => orRaise (substrFrom q 7) s (fun dbName => handleCreateDatabase s u dbName))
        else if substr lowerQuery 0 4 = .ok "open" then
          orRaise (substrFrom q 5) s (fun dbName => handleOpenDatabase s u dbName)
        else if substr lowerQuery 0 4 = .ok "drop" then
          match s.currentDatabase with
          | some ptr =>
            orRaise (substrFrom q 5) s (fun tableName =>
              withDatabase s ptr (fun db => handleDropTable s u ptr db tableName))
          | none => orRaise (substrFrom q 5) s (fun dbName => handleDropDatabase s u dbName)
        else
          match s.currentDatabase with
          | none => (.ok "No database opened. Use 'open <database>' first.", s)
          | some ptr =>
            if substr lowerQuery 0 11 = .ok "insert into" then
              orRaise (substrFrom q 12) s (fun params =>
                withDatabase s ptr (fun db => handleInsert dis s db params))
            else if substr lowerQuery 0 11 = .ok "delete from" then
              orRaise (substrFrom q 12) s (fun params =>
                withDatabase s ptr (fun db => handleDelete s db params))
            else if substr lowerQuery 0 11 = .ok "select from" then
              orRaise (substrFrom q 12) s (fun params =>
                withDatabase s ptr (fun db => handleSelect s db params))
            else (.ok "Unknown command", s)

/-! ## `main.cpp`: the login command of the terminal loop -/

/-- The `login` branch of the loop in `main` (main.cpp:58-80): reads the two
answers, logs in on a new `User`, and replaces the current user of the
`QueryHelper` only when that succeeds.  The result is what is printed. -/
def mainLogin (s : State) : Outcome String × State :=
  let username := s.stdin.headD ""
  let password := (s.stdin.drop 1).headD ""
  let s1 := { s with stdin := s.stdin.drop 2 }
  match User.new s1.fs with
  | (.raised e, fs1) => (.raised e, { s1 with fs := fs1 })
  | (.ok loginUser, fs1) =>
    let r := loginUser.login username password fs1 s1.heap
    let s2 := { s1 with fs := r.2.2.1, heap := r.2.2.2 }
    match r.1 with
    | .raised e => (.raised e, s2)
    | .ok true =>
      (.ok ("Successfully logged in as " ++ username), { s2 with currentUser := some r.2.1 })
    | .ok false => (.ok "Login failed", s2)

/-! ## Sessions and sample states -/

/-- The lines of a session handed to executeQuery one after the other, as the
loop of `main` does: the results in order, and the final state. -/
def runQueries (dis : Nat → Fin 36) : State → List String → List (Outcome String) × State
  | s, [] => ([], s)
  | s, query :: rest =>
    let r := executeQuery dis s query
    let rs := runQueries dis r.2 rest
    (r.1 :: rs.1, rs.2)

/-- A file system with nothing in the working directory: the first run. -/
def emptyFS : FS := { dirs := [], files := [] }

/-- Some draws for the unique id of an insert. -/
def sampleDraws : Nat → Fin 36 := fun i => ⟨(7 * i + 3) % 36, Nat.mod_lt _ (by decide)⟩

/-- The file system that the first construction of a `User` leaves. -/
def bootFS : FS :=
  { dirs := [["account"], ["account", "admin"], ["database"], ["database", "admin"],
             ["database", "admin", "default"]],
    files := [(["account", "users.csv"], "admin\n"),
              (["account", "admin", "admin.csv"], "admin\ndefault\n")] }

/-- The state of a new `QueryHelper` on the first run, with the answers
`admin`, `admin` waiting on the console. -/
def freshState : State :=
  { fs := bootFS, heap := [], stdin := ["admin", "admin"],
    currentUser := some { name := "", password := "", databases := [] },
    currentDatabase := none }

/-- The user `admin` after login and `create shop`. -/
def adminUser : User :=
  { name := "admin", password := "admin", databases := [("default", 0), ("shop", 1)] }

/-- The table `items (name, price)` of the database `shop`. -/
def itemsTable : Table :=
  { name := "items", schema := ["name", "price"], filePath := "database/admin/shop/items.csv" }

/-- The database `shop` of `admin`, holding the table `items`. -/
def shopDb : Database :=
  { name := "shop", owner := "admin", tables := [itemsTable], basePath := "database/admin/shop/" }

/-- The state after `login` as admin, `create shop`, `open shop` and
`create table items (name, price)`, starting from `freshState`. -/
def shopState : State :=
  { fs :=
      { dirs := [["account"], ["account", "admin"], ["database"], ["database", "admin"],
                 ["database", "admin", "default"], ["database", "admin", "shop"]],
        files := [(["account", "users.csv"], "admin\n"),
                  (["account", "admin", "admin.csv"], "admin\ndefault,shop\n"),
                  (["database", "admin", "shop", "items.csv"], "unique_id,name,price\n")] },
    heap := [{ name := "default", owner := "admin", tables := [],
               basePath := "database/admin/default/" }, shopDb],
    stdin := [],
    currentUser := some adminUser,
    currentDatabase := some 1 }

/-- A name as a command line can carry it: not empty, without white space at
either end, which `trim` would strip, and without a final semicolon, which
executeQuery would remove. -/
def isPlainName (name : String) : Bool :=
  match name.data.head?, name.data.getLast? with
  | some c, some l => c ∉ trimSet && l ∉ trimSet && l ≠ ';'
  | _, _ => false

/-- The state after `create x`, `open x`, `create table t (a)` typed into the
new session `freshState` (no login yet), then `login` typed to the loop of
`main` and answered `admin`, `admin`: the user is `admin`, and the open
database is still `x`, whose owner is the nameless user of the new session. -/
def reloginState : State :=
  { fs :=
      { dirs := [["account"], ["account", "admin"], ["database"], ["database", "admin"],
                 ["database", "admin", "default"], ["database", "x"]],
        files := [(["account", "users.csv"], "admin\n"),
                  (["account", "admin", "admin.csv"], "admin\ndefault\n"),
                  (["account", ".csv"], "\nx\n"),
                  (["database", "x", "t.csv"], "unique_id,a\n")] },
    heap := [{ name := "x", owner := "",
               tables := [{ name := "t", schema := ["a"], filePath := "database//x/t.csv" }],
               basePath := "database//x/" },
             { name := "default", owner := "admin", tables := [],
               basePath := "database/admin/default/" }],
    stdin := [],
    currentUser := some { name := "admin", password := "admin", databases := [("default", 1)] },
    currentDatabase := some 0 }

/-- A file system with a second account, `bob` with password `pw`, who owns
the database `notes` with the table `memo (text)`. -/
def twoUsersFS : FS :=
  { dirs := [["account"], ["account", "admin"], ["account", "bob"], ["database"],
             ["database", "admin"], ["database", "admin", "default"], ["database", "bob"],
             ["database", "bob", "notes"]],
    files := [(["account", "users.csv"], "admin\nbob\n"),
              (["account", "admin", "admin.csv"], "admin\ndefault\n"),
              (["account", "bob", "bob.csv"], "pw\nnotes\n"),
              (["database", "bob", "notes", "memo.csv"], "unique_id,text\n")] }

/-- The state of a new `QueryHelper` on `twoUsersFS`, with the answers of two
logins waiting on the console: first `bob`, then `admin`. -/
def twoUsersStart : State :=
  { fs := twoUsersFS, heap := [], stdin := ["bob", "pw", "admin", "admin"],
    currentUser := some { name := "", password := "", databases := [] },
    currentDatabase := none }

/-- The state after `login` as bob, `open notes`, and `login` as admin, the
logins typed to the loop of `main`: the user is `admin` and the database
`notes` of `bob` is still open. -/
def secondLoginState : State :=
  (mainLogin (executeQuery sampleDraws (mainLogin twoUsersStart).2 "open notes").2).2

/-! ## Splitting as the specification words it, and further sample states -/

/-- The pieces of a text between the occurrences of a delimiter, the
splitting "at every comma" of the specification: `k` occurrences give `k + 1`
pieces, empty pieces included. -/
def piecesBetween (delim : Char) : List Char → List (List Char)
  | [] => [[]]
  | c :: cs =>
    if c = delim then [] :: piecesBetween delim cs
    else
      match piecesBetween delim cs with
      | [] => [[c]]
      | p :: ps => (c :: p) :: ps

/-- The state after `login` as admin on the first run: the set of admin holds
`default`, whose directory exists, and no database is open. -/
def adminState : State :=
  { fs := bootFS,
    heap := [{ name := "default", owner := "admin", tables := [],
               basePath := "database/admin/default/" }],
    stdin := [],
    currentUser := some { name := "admin", password := "admin", databases := [("default", 0)] },
    currentDatabase := none }

/-- The table that `create table t (a, )` makes in `shop`: its second field
name is empty. -/
def finalEmptyNameTable : Table := Table.new "t" ["a", ""] "database/admin/shop/"

/-- The table that `create table u ( )` makes in `shop`: its one field name
is empty. -/
def emptyNameTable : Table := Table.new "u" [""] "database/admin/shop/"

/-- The file system of `shopState` in which the file of `items` holds a last
line `old,1,2` that no newline ends. -/
def unfinishedFS : FS :=
  shopState.fs.setFile ["database", "admin", "shop", "items.csv"] "unique_id,name,price\nold,1,2"

/-- A limit as it is typed: a string of one or more decimal digits. -/
def isDecimal (tok : String) : Bool := tok.data ≠ [] && tok.data.all Char.isDigit

/-- The number that a string of decimal digits denotes. -/
def decimalValue (tok : String) : Nat :=
  tok.data.foldl (fun acc d => 10 * acc + (d.toNat - 48)) 0

/-- The state `shopState` in a working directory that also holds
`shop/items.csv`, the path that handleSelect opens for the table `items` of
the database `shop`, with four rows. -/
def selectState : State :=
  { shopState with
    fs := { dirs := shopState.fs.dirs ++ [["shop"]],
            files := shopState.fs.files
              ++ [(["shop", "items.csv"],
                   "unique_id,name,price\nr1,a,1\nr2,b,2\nr3,c,3\nr4,d,4\n")] } }

/-! # Theorems -/

/-! ## Lemmas on the output loops -/

theorem string_join_data (l : List String) :
    (String.join l).data = (l.map String.data).flatten := by
  have h : ∀ (acc : String), (l.foldl (fun r s => r ++ s) acc).data
      = acc.data ++ (l.map String.data).flatten := by
    induction l with
    | nil => intro acc; simp
    | cons a t ih => intro acc; simp [ih, List.append_assoc]
  simpa [String.join] using h ""

theorem foldl_emit {α : Type} (f : α → String) (l : List α) (init : String) :
    l.foldl (fun res i => res ++ f i ++ "\n") init
      = init ++ String.join (l.map (fun i => f i ++ "\n")) := by
  induction l generalizing init with
  | nil => apply String.ext; simp [String.join]
  | cons a t ih =>
    rw [List.foldl_cons, ih]
    apply String.ext
    simp [string_join_data, List.append_assoc]

theorem map_getD_range' (rows : List String) (s : Nat) (hs : s ≤ rows.length) :
    (List.range' s (rows.length - s)).map (fun i => rows.getD i "") = rows.drop s := by
  apply List.ext_getElem
  · simp
  · intro i h1 h2
    simp at h1 h2 ⊢
    rw [List.getElem?_eq_getElem (by omega)]; rfl

theorem map_getD_range (rows : List String) (k : Nat) (hk : k ≤ rows.length) :
    (List.range k).map (fun i => rows.getD i "") = rows.take k := by
  apply List.ext_getElem
  · simp [hk]
  · intro i h1 h2
    simp at h1 h2 ⊢
    rw [List.getElem?_eq_getElem (by omega)]; rfl

theorem static_cast_int_small (x : Nat) (h : x < 2 ^ 31) : static_cast_int x = x := by
  unfold static_cast_int
  have e : x % 2 ^ 32 = x := Nat.mod_eq_of_lt (by omega)
  rw [e, if_pos h]

theorem selectWindow_all (headerLine : String) (rows : List String) (last : Bool) :
    selectWindow headerLine rows (-1) last = headerThenRows headerLine rows := by
  simp [selectWindow, headerThenRows, foldl_emit]

theorem startIndex_last (M N : Nat) (hN : N < 2 ^ 31) (hM : M < 2 ^ 31) :
    (max 0 (static_cast_int (sizeMinusInt M (N : Int)))).toNat = M - N := by
  unfold sizeMinusInt static_cast_int
  by_cases h : N ≤ M
  · have e1 : (((M : Int) - (N : Int)) % (2 : Int) ^ 64).toNat = M - N := by
      have : ((M : Int) - (N : Int)) = ((M - N : Nat) : Int) := by omega
      rw [this]
      have h2 : ((M - N : Nat) : Int) % (2 : Int) ^ 64 = ((M - N : Nat) : Int) :=
        Int.emod_eq_of_lt (by omega) (by omega)
      rw [h2]; simp
    rw [e1]
    have e2 : (M - N) % 2 ^ 32 = M - N := Nat.mod_eq_of_lt (by omega)
    rw [e2]
    have e3 : M - N < 2 ^ 31 := by omega
    rw [if_pos e3]
    omega
  · have hlt : M < N := by omega
    have e1 : (((M : Int) - (N : Int)) % (2 : Int) ^ 64).toNat = 2 ^ 64 - (N - M) := by
      have h2 : ((M : Int) - (N : Int)) % (2 : Int) ^ 64 = (M : Int) - N + 2 ^ 64 := by
        rw [← Int.add_emod_self]
        exact Int.emod_eq_of_lt (by omega) (by omega)
      rw [h2]; omega
    rw [e1]
    have e2 : (2 ^ 64 - (N - M)) % 2 ^ 32 = 2 ^ 32 - (N - M) := by omega
    rw [e2]
    have e3 : ¬ (2 ^ 32 - (N - M) < 2 ^ 31) := by omega
    rw [if_neg e3]
    have : M - N = 0 := by omega
    rw [this]
    have e4 : ((2 ^ 32 - (N - M) : Nat) : Int) - (2 : Int) ^ 32 < 0 := by omega
    omega

/-! ## The row window of select -/

/-- The row-window step of select with a limit `N >= 0` and the `last` flag:
the header, then the rows from index `M - N` on (all of them when `M <= N`).
`N` is an `int` and the row count `M` is within `int`. -/
theorem selectWindow_last (headerLine : String) (rows : List String) (N : Nat)
    (hN : N < 2 ^ 31) (hM : rows.length < 2 ^ 31) :
    selectWindow headerLine rows (N : Int) true
      = headerThenRows headerLine (rows.drop (rows.length - N)) := by
  have hne : ((N : Int) = -1) = False := by
    apply propext; constructor
    · intro h; omega
    · intro h; exact h.elim
  simp only [selectWindow, hne, if_false, if_true, foldl_emit, headerThenRows]
  rw [startIndex_last rows.length N hN hM]
  rw [← map_getD_range' rows (rows.length - N) (by omega)]
  rw [List.map_map]; rfl

/-- The row-window step of select with a limit `N >= 0` and no `last`: the
header, then the first `min(N, M)` rows. -/
theorem selectWindow_first (headerLine : String) (rows : List String) (N : Nat)
    (hN : N < 2 ^ 31) (hM : rows.length < 2 ^ 31) :
    selectWindow headerLine rows (N : Int) false
      = headerThenRows headerLine (rows.take (min N rows.length)) := by
  have hne : ((N : Int) = -1) = False := by
    apply propext; constructor
    · intro h; omega
    · intro h; exact h.elim
  simp only [selectWindow, hne, if_false, foldl_emit, headerThenRows, Bool.false_eq_true]
  rw [static_cast_int_small _ hM]
  have hb : (min (N : Int) (rows.length : Int)).toNat = min N rows.length := by omega
  rw [hb, ← map_getD_range rows (min N rows.length) (by omega)]
  rw [List.map_map]; rfl

/-! ## Lemmas on text -/

theorem intercalate_go_eq_foldl (sep : String) (fields : List String) (acc : String) :
    String.intercalate.go acc sep fields
      = fields.foldl (fun a field => a ++ sep ++ field) acc := by
  induction fields generalizing acc with
  | nil => rfl
  | cons a t ih => simp [String.intercalate.go, ih]

theorem csvLine_eq (first : String) (fields : List String) :
    csvLine first fields = String.intercalate "," (first :: fields) ++ "\n" := by
  simp [csvLine, String.intercalate, intercalate_go_eq_foldl]

theorem foldl_comma_data (fields : List String) (acc : String) :
    (fields.foldl (fun a field => a ++ "," ++ field) acc).data
      = acc.data ++ (fields.map (fun f => ',' :: f.data)).flatten := by
  induction fields generalizing acc with
  | nil => simp
  | cons a t ih => simp [ih, List.append_assoc]

theorem getlineAll_ne_nil (d : Char) (xs : List Char) (hne : xs ≠ []) :
    getlineAll d xs ≠ [] := by
  cases xs with
  | nil => exact absurd rfl hne
  | cons e es =>
    simp only [getlineAll]
    split
    · simp
    · split <;> simp

theorem getlineAll_no_delim (d : Char) (xs : List Char) (h : d ∉ xs) (hne : xs ≠ []) :
    getlineAll d xs = [xs] := by
  induction xs with
  | nil => exact absurd rfl hne
  | cons c cs ih =>
    have hc : c ≠ d := fun e => h (by simp [e])
    have hcs : d ∉ cs := fun e => h (by simp [e])
    by_cases hnil : cs = []
    · subst hnil; simp [getlineAll, hc]
    · simp [getlineAll, hc, ih hcs hnil]

theorem getlineAll_line (d : Char) (xs rest : List Char) (h : d ∉ xs) :
    getlineAll d (xs ++ d :: rest) = xs :: getlineAll d rest := by
  induction xs with
  | nil => simp [getlineAll]
  | cons c cs ih =>
    have hc : c ≠ d := fun e => h (by simp [e])
    have hcs : d ∉ cs := fun e => h (by simp [e])
    simp [getlineAll, hc, ih hcs]

theorem getlineAll_append_terminated (d : Char) (pre rest : List Char)
    (h : pre = [] ∨ pre.getLast? = some d) :
    getlineAll d (pre ++ rest) = getlineAll d pre ++ getlineAll d rest := by
  induction pre with
  | nil => simp [getlineAll]
  | cons c cs ih =>
    have hlast : (c :: cs).getLast? = some d := by
      rcases h with h | h
      · exact absurd h (by simp)
      · exact h
    cases cs with
    | nil =>
      have : c = d := by simpa using hlast
      subst this
      simp [getlineAll]
    | cons e es =>
      have hcs : (e :: es).getLast? = some d := by
        rw [List.getLast?_cons_cons] at hlast
        exact hlast
      have ih' := ih (Or.inr hcs)
      by_cases hc : c = d
      · rw [List.cons_append, getlineAll, getlineAll, if_pos hc, if_pos hc, ih']
        rfl
      · rw [List.cons_append, getlineAll, if_neg hc, ih']
        conv_rhs => rw [getlineAll, if_neg hc]
        cases hg : getlineAll d (e :: es) with
        | nil => exact absurd hg (getlineAll_ne_nil d _ (by simp))
        | cons t ts => rfl

/-! ## Lemmas on the file system -/

theorem isDir_setFile (fs : FS) (p q : List String) (c : String) :
    (fs.setFile p c).isDir q = fs.isDir q := rfl

theorem find_filter_ne (l : List (List String × String)) (p q : List String) (h : q ≠ p) :
    List.find? (fun e => decide (e.1 = q)) (l.filter (fun e => decide (e.1 ≠ p)))
      = List.find? (fun e => decide (e.1 = q)) l := by
  induction l with
  | nil => rfl
  | cons e es ih =>
    by_cases he : e.1 = p
    · have hq : ¬ e.1 = q := fun hq => h (hq.symm.trans he)
      rw [List.filter_cons_of_neg (by simp [he]), List.find?_cons_of_neg _ (by simp [hq]), ih]
    · rw [List.filter_cons_of_pos (by simp [he])]
      by_cases hq : e.1 = q
      · rw [List.find?_cons_of_pos _ (by simp [hq]), List.find?_cons_of_pos _ (by simp [hq])]
      · rw [List.find?_cons_of_neg _ (by simp [hq]), List.find?_cons_of_neg _ (by simp [hq]), ih]

theorem find_filter_self (l : List (List String × String)) (p : List String) :
    List.find? (fun e => decide (e.1 = p)) (l.filter (fun e => decide (e.1 ≠ p))) = none := by
  induction l with
  | nil => rfl
  | cons e es ih =>
    by_cases he : e.1 = p
    · rw [List.filter_cons_of_neg (by simp [he]), ih]
    · rw [List.filter_cons_of_pos (by simp [he]), List.find?_cons_of_neg _ (by simp [he]), ih]

theorem content_setFile_same (fs : FS) (p : List String) (c : String) (h : fs.isDir p = false) :
    (fs.setFile p c).content p = some c := by
  simp only [FS.content, isDir_setFile, h]
  simp [FS.setFile, List.find?_append, find_filter_self]

theorem content_setFile_other (fs : FS) (p q : List String) (c : String) (h : q ≠ p) :
    (fs.setFile p c).content q = fs.content q := by
  simp only [FS.content, isDir_setFile]
  split
  · rfl
  · congr 1
    simp only [FS.setFile, List.find?_append, find_filter_ne _ _ _ h]
    have h1 : List.find? (fun e => decide (e.1 = q)) [(p, c)] = none := by
      simp [List.find?, Ne.symm h]
    rw [h1, Option.or_none]

theorem generateUniqueId_length (dis : Nat → Fin 36) : (generateUniqueId dis).length = 12 := by
  simp [generateUniqueId, String.length]

theorem idAlphabet_getD_mem : ∀ k : Fin 36, idAlphabet.getD k.val '0' ∈ idAlphabet := by
  decide

theorem generateUniqueId_chars (dis : Nat → Fin 36) :
    ∀ c ∈ (generateUniqueId dis).data, c ∈ idAlphabet := by
  intro c hc
  simp only [generateUniqueId, List.mem_map] at hc
  obtain ⟨i, _, rfl⟩ := hc
  exact idAlphabet_getD_mem (dis i)

/-! ## Lemmas on the dispatch of executeQuery -/

theorem substr_zero (str : String) (n : Nat) : substr str 0 n = .ok ⟨str.data.take n⟩ := by
  simp [substr]

theorem substr_zero_shorter (str w : String) (n m : Nat) (h : substr str 0 n = .ok w)
    (hm : m ≤ n) : substr str 0 m = .ok ⟨w.data.take m⟩ := by
  rw [substr_zero] at h
  rw [substr_zero]
  have hw : w = ⟨str.data.take n⟩ := by injection h with h; exact h.symm
  subst hw
  simp [List.take_take, Nat.min_eq_left hm]

theorem orRaise_ok {α : Type} (o : Outcome α) (a : α) (s : State)
    (k : α → Outcome String × State) (h : o = .ok a) : orRaise o s k = k a := by
  subst h; rfl

theorem withDatabase_some (s : State) (ptr : Nat) (db : Database)
    (k : Database → Outcome String × State) (h : s.heap[ptr]? = some db) :
    withDatabase s ptr k = k db := by
  simp [withDatabase, h]

/-- What executeQuery does with a line that carries one of the three
keywords of eleven characters, in a session with a user and an open
database: it is not taken for `login`, `show`, `create`, `open` or `drop`. -/
theorem executeQuery_eleven (dis : Nat → Fin 36) (s : State) (query q kw : String) (u : User)
    (ptr : Nat)
    (hq : normalizeQuery query = some q)
    (hkw : substr (toLowerStr q) 0 11 = .ok kw)
    (hshape : kw = "insert into" ∨ kw = "delete from" ∨ kw = "select from")
    (hu : s.currentUser = some u) (hdb : s.currentDatabase = some ptr) :
    executeQuery dis s query =
      if kw = "insert into" then
        orRaise (substrFrom q 12) s (fun params =>
          withDatabase s ptr (fun db => handleInsert dis s db params))
      else if kw = "delete from" then
        orRaise (substrFrom q 12) s (fun params =>
          withDatabase s ptr (fun db => handleDelete s db params))
      else
        orRaise (substrFrom q 12) s (fun params =>
          withDatabase s ptr (fun db => handleSelect s db params)) := by
  have h5 := substr_zero_shorter _ _ 11 5 hkw (by decide)
  have h6 := substr_zero_shorter _ _ 11 6 hkw (by decide)
  have h4 := substr_zero_shorter _ _ 11 4 hkw (by decide)
  have hshow : toLowerStr q ≠ "show" := by
    intro e
    rw [e] at hkw
    rcases hshape with h | h | h <;> subst h <;> revert hkw <;> decide
  unfold executeQuery
  rcases hshape with h | h | h <;> subst h <;>
    simp only [hq, h5, h6, h4, hkw, hu, hdb, hshow] <;> rfl

/-! ## C4, C5: insertRow -/

/-- C4: a value list whose length differs from that of the schema makes
insertRow return false and leave the file system as it was; and an
`insert into` line for which the interpreter finds the table and parses a
value list of another length than the schema returns "Failed to insert data"
and leaves the whole state, files included, as it was. -/
theorem insert_mismatch_writes_nothing :
    (∀ (dis : Nat → Fin 36) (t : Table) (data : List String) (fs : FS),
        data.length ≠ t.schema.length → t.insertRow dis data fs = (false, fs))
    ∧ (∀ (dis : Nat → Fin 36) (s : State) (query q params before valueList : String) (u : User)
        (ptr k : Nat) (db : Database) (values : List String) (table : Table),
        normalizeQuery query = some q →
        substr (toLowerStr q) 0 11 = .ok "insert into" →
        substrFrom q 12 = .ok params →
        s.currentUser = some u → s.currentDatabase = some ptr → s.heap[ptr]? = some db →
        findChar '(' params.data = some k →
        substr params 0 k = .ok before → substrFrom params k = .ok valueList →
        parseAttributeList valueList = .ok values →
        db.getTable (trim before) = some table →
        values.length ≠ table.schema.length →
        executeQuery dis s query = (.ok "Failed to insert data", s)) := by
  have h1 : ∀ (dis : Nat → Fin 36) (t : Table) (data : List String) (fs : FS),
      data.length ≠ t.schema.length → t.insertRow dis data fs = (false, fs) := by
    intro dis t data fs h
    simp [Table.insertRow, h]
  refine ⟨h1, ?_⟩
  intro dis s query q params before valueList u ptr k db values table hq hkw hparams hu hdb hheap
    hparen hname hlist hvalues htable hmis
  rw [executeQuery_eleven dis s query q "insert into" u ptr hq hkw (Or.inl rfl) hu hdb]
  rw [if_pos rfl, orRaise_ok _ _ _ _ hparams, withDatabase_some _ _ _ _ hheap]
  simp only [handleInsert, hparen, hname, hlist, hvalues, htable, h1 dis table values s.fs hmis]

theorem newline_not_mem_idAlphabet : '\n' ∉ idAlphabet := by decide

theorem newline_not_mem_row (dis : Nat → Fin 36) (data : List String)
    (h : ∀ v ∈ data, '\n' ∉ v.data) :
    '\n' ∉ (String.intercalate "," (generateUniqueId dis :: data)).data := by
  simp only [String.intercalate, intercalate_go_eq_foldl, foldl_comma_data, List.mem_append,
    List.mem_flatten, List.mem_map]
  rintro (hid | ⟨l, ⟨v, hv, rfl⟩, hmem⟩)
  · exact newline_not_mem_idAlphabet (generateUniqueId_chars dis _ hid)
  · rcases List.mem_cons.mp hmem with hc | hc
    · exact absurd hc (by decide)
    · exact h v hv hc

theorem fileLines_append_line (old row : String)
    (hold : old = "" ∨ old.data.getLast? = some '\n') (hrow : '\n' ∉ row.data) :
    fileLines (old ++ row ++ "\n") = fileLines old ++ [row] := by
  have hterm : old.data = [] ∨ old.data.getLast? = some '\n' := by
    rcases hold with h | h
    · left; rw [h]
    · right; exact h
  simp only [fileLines, String.data_append, List.append_assoc]
  rw [getlineAll_append_terminated _ _ _ hterm]
  rw [getlineAll_line _ _ _ hrow]
  simp [getlineAll]

theorem openRead_of_canOpenWrite (fs : FS) (path : String) (h : fs.canOpenWrite path = true) :
    endsWithSlash path = false ∧ fs.isDir (pathComponents path) = false := by
  simp only [FS.canOpenWrite, Bool.and_eq_true, Bool.not_eq_true', decide_eq_true_eq] at h
  exact ⟨h.1.1.1, h.1.2⟩

theorem path_ne_empty_of_canOpenWrite (fs : FS) (path : String)
    (h : fs.canOpenWrite path = true) : path ≠ "" := by
  simp only [FS.canOpenWrite, Bool.and_eq_true, Bool.not_eq_true', decide_eq_true_eq] at h
  intro he
  apply h.1.1.2
  rw [he]
  rfl

/-- Reading a path that is not empty, has no final `/` and names no
directory gives the content of the regular file there, if any. -/
theorem openRead_eq_content (fs : FS) (path : String) (hne : path ≠ "")
    (hslash : endsWithSlash path = false) (hdir : fs.isDir (pathComponents path) = false) :
    fs.openRead path = fs.content (pathComponents path) := by
  simp only [FS.openRead, hne, hdir, hslash, Bool.false_eq_true, if_false]

/-- C5, as amended: when the value list has the length of the schema and the
file opens for append, insertRow returns true and the file then holds its old
content followed by the text `<id>,v1,...,vn` and a newline, where the id has
twelve characters, all among `0-9a-z`; no other file and no directory
changes.  That text is one line when no value holds a newline, and when
moreover the old content is empty or ends in a newline (as what initialize
and insertRow write does) the lines of the file are the old lines, unchanged
and in place, followed by that one line. -/
theorem insertRow_appends_one_line (dis : Nat → Fin 36) (t : Table) (data : List String)
    (fs : FS) (hlen : data.length = t.schema.length)
    (hopen : fs.canOpenWrite t.filePath = true) :
    (t.insertRow dis data fs).1 = true
    ∧ (t.insertRow dis data fs).2.openRead t.filePath
        = some ((fs.openRead t.filePath).getD ""
            ++ String.intercalate "," (generateUniqueId dis :: data) ++ "\n")
    ∧ (generateUniqueId dis).length = 12
    ∧ (∀ c ∈ (generateUniqueId dis).data, c ∈ "0123456789abcdefghijklmnopqrstuvwxyz".data)
    ∧ (∀ p, p ≠ pathComponents t.filePath →
        (t.insertRow dis data fs).2.content p = fs.content p)
    ∧ (t.insertRow dis data fs).2.dirs = fs.dirs
    ∧ ((∀ v ∈ data, '\n' ∉ v.data) →
        '\n' ∉ (String.intercalate "," (generateUniqueId dis :: data)).data
        ∧ (((fs.openRead t.filePath).getD "" = ""
              ∨ ((fs.openRead t.filePath).getD "").data.getLast? = some '\n') →
            fileLines ((fs.openRead t.filePath).getD ""
                ++ String.intercalate "," (generateUniqueId dis :: data) ++ "\n")
              = fileLines ((fs.openRead t.filePath).getD "")
                  ++ [String.intercalate "," (generateUniqueId dis :: data)])) := by
  obtain ⟨hslash, hdir⟩ := openRead_of_canOpenWrite fs t.filePath hopen
  have hrun : t.insertRow dis data fs
      = (true, fs.appendFile t.filePath (csvLine (generateUniqueId dis) data)) := by
    simp [Table.insertRow, hlen, hopen]
  rw [hrun]
  refine ⟨rfl, ?_, generateUniqueId_length dis, generateUniqueId_chars dis, ?_, rfl, ?_⟩
  · rw [openRead_eq_content fs _ (path_ne_empty_of_canOpenWrite fs _ hopen) hslash hdir,
      openRead_eq_content _ _ (path_ne_empty_of_canOpenWrite fs _ hopen) hslash
        (by rw [FS.appendFile, isDir_setFile]; exact hdir)]
    simp only [FS.appendFile]
    rw [content_setFile_same _ _ _ hdir, csvLine_eq]
    congr 1
    apply String.ext
    simp [List.append_assoc]
  · intro p hp
    exact content_setFile_other _ _ _ _ hp
  · intro hdata
    refine ⟨newline_not_mem_row dis data hdata, fun hold => ?_⟩
    exact fileLines_append_line _ _ hold (newline_not_mem_row dis data hdata)

/-- Witness of C5: a row for `items (name, price)` in the state `shopState`. -/
theorem insertRow_appends_one_line_witness :
    (itemsTable.insertRow sampleDraws ["widget", "9.99"] shopState.fs).1 = true
    ∧ (itemsTable.insertRow sampleDraws ["widget", "9.99"] shopState.fs).2.openRead
          "database/admin/shop/items.csv"
        = some "unique_id,name,price\n3ahov29gnu18,widget,9.99\n"
    ∧ fileLines "unique_id,name,price\n3ahov29gnu18,widget,9.99\n"
        = ["unique_id,name,price", "3ahov29gnu18,widget,9.99"]
    ∧ generateUniqueId sampleDraws = "3ahov29gnu18" :=
  ⟨(insertRow_appends_one_line sampleDraws itemsTable ["widget", "9.99"] shopState.fs
      (by decide) (by decide)).1, by decide, by decide, by decide⟩

/-- Counterexample to C5 as stated: the value list has the length of the
schema and the file opens for append, yet the lines before the call are not
all unchanged, or more than one line is added.  On a file whose last line
`old,1,2` no newline ends, insertRow returns true and the file has as many
lines as before: the second line has become `old,1,23ahov29gnu18,w,9`.  And a
value that holds a newline adds two lines, neither of them
`<id>,v1,...,vn`. -/
theorem insertRow_extends_unfinished_line :
    unfinishedFS.openRead itemsTable.filePath = some "unique_id,name,price\nold,1,2"
    ∧ ["w", "9"].length = itemsTable.schema.length
    ∧ unfinishedFS.canOpenWrite itemsTable.filePath = true
    ∧ (itemsTable.insertRow sampleDraws ["w", "9"] unfinishedFS).1 = true
    ∧ (itemsTable.insertRow sampleDraws ["w", "9"] unfinishedFS).2.openRead itemsTable.filePath
        = some "unique_id,name,price\nold,1,23ahov29gnu18,w,9\n"
    ∧ fileLines "unique_id,name,price\nold,1,2" = ["unique_id,name,price", "old,1,2"]
    ∧ fileLines "unique_id,name,price\nold,1,23ahov29gnu18,w,9\n"
        = ["unique_id,name,price", "old,1,23ahov29gnu18,w,9"]
    ∧ ["a\nb", "9"].length = itemsTable.schema.length
    ∧ shopState.fs.openRead itemsTable.filePath = some "unique_id,name,price\n"
    ∧ (itemsTable.insertRow sampleDraws ["a\nb", "9"] shopState.fs).1 = true
    ∧ ((itemsTable.insertRow sampleDraws ["a\nb", "9"] shopState.fs).2.openRead
          itemsTable.filePath).map fileLines
        = some ["unique_id,name,price", "3ahov29gnu18,a", "b,9"] := by
  decide

/-- Witness of C4: one value for the two fields of `items`. -/
theorem insert_mismatch_writes_nothing_witness :
    itemsTable.insertRow sampleDraws ["widget"] shopState.fs = (false, shopState.fs)
    ∧ executeQuery sampleDraws shopState "insert into items (widget)"
        = (.ok "Failed to insert data", shopState) :=
  ⟨insert_mismatch_writes_nothing.1 sampleDraws itemsTable ["widget"] shopState.fs (by decide),
    insert_mismatch_writes_nothing.2 sampleDraws shopState "insert into items (widget)"
      "insert into items (widget)" "items (widget)" "items " "(widget)" adminUser 1 6 shopDb
      ["widget"] itemsTable (by decide) (by decide) (by decide) (by decide) (by decide)
      (by decide) (by decide) (by decide) (by decide) (by decide) (by decide) (by decide)⟩

/-! ## Lemmas on trim and on the reading of a line -/

theorem trim_eq_self (str : String) (c l : Char) (rest : List Char)
    (hdata : str.data = c :: rest) (hc : c ∉ trimSet)
    (hlast : (c :: rest).getLast? = some l) (hl : l ∉ trimSet) : trim str = str := by
  have hrev : ∃ t, (c :: rest).reverse = l :: t := by
    have h := hlast
    rw [List.getLast?_eq_head?_reverse] at h
    cases hr : (c :: rest).reverse with
    | nil => rw [hr] at h; exact absurd h (by simp)
    | cons a t =>
      rw [hr] at h
      simp only [List.head?_cons, Option.some.injEq] at h
      exact ⟨t, by rw [h]⟩
  obtain ⟨t, ht⟩ := hrev
  have hfirst : find_first_not_of trimSet (c :: rest) = some 0 := by
    simp [find_first_not_of, hc]
  have hlastIdx : find_last_not_of trimSet (c :: rest) = some ((c :: rest).length - 1 - 0) := by
    simp [find_last_not_of, ht, find_first_not_of, hl]
  apply String.ext
  simp only [trim, hdata, hfirst, hlastIdx, Option.getD_some, List.drop_zero]
  apply List.take_of_length_le
  simp

theorem normalizeQuery_eq_self (query : String) (c l : Char) (rest : List Char)
    (hdata : query.data = c :: rest) (hc : c ∉ trimSet)
    (hlast : (c :: rest).getLast? = some l) (hl : l ∉ trimSet) (hsemi : l ≠ ';') :
    normalizeQuery query = some query := by
  have htrim := trim_eq_self query c l rest hdata hc hlast hl
  have hne : query ≠ "" := by
    intro h
    rw [h] at hdata
    exact absurd hdata (by simp)
  have hlast' : query.data.getLast? ≠ some ';' := by
    rw [hdata, hlast]
    intro h
    exact hsemi (Option.some.inj h)
  unfold normalizeQuery
  simp only [htrim]
  rw [if_neg hne, if_neg hlast']

theorem toLowerStr_length (q : String) : (toLowerStr q).length = q.length := by
  show ((toLowerStr q).data).length = q.data.length
  simp only [toLowerStr, List.length_map]

/-- Where executeQuery takes a `create` line when no database is open: to
handleCreateDatabase, with what follows the seventh character. -/
theorem executeQuery_create_database (dis : Nat → Fin 36) (s : State) (query q rest : String)
    (u : User)
    (hq : normalizeQuery query = some q)
    (hkw : substr (toLowerStr q) 0 6 = .ok "create")
    (hrest : substrFrom q 7 = .ok rest)
    (hu : s.currentUser = some u) (hnodb : s.currentDatabase = none) :
    executeQuery dis s query = handleCreateDatabase s u rest := by
  have h5 : ¬ (substr (toLowerStr q) 0 5 = .ok "login") := by
    rw [substr_zero_shorter _ _ 6 5 hkw (by decide)]
    decide
  have hshow : toLowerStr q ≠ "show" := by
    intro e
    rw [e] at hkw
    revert hkw
    decide
  have hlen : ¬ (7 > (toLowerStr q).length) := by
    rw [toLowerStr_length]
    intro h
    simp [substrFrom, h] at hrest
  have h7 : substr (toLowerStr q) 7 5 = .ok ⟨((toLowerStr q).data.drop 7).take 5⟩ := by
    simp only [substr, hlen, if_false]
  unfold executeQuery
  simp only [hq]
  rw [if_neg h5]
  simp only [hu]
  rw [if_neg hshow, if_pos hkw, h7]
  simp only [orRaise, hnodb, ite_self, hrest]

/-! ## Lemmas on the database map of a user -/

theorem mapAssign_new (m : List (String × Nat)) (key : String) (value : Nat)
    (h : key ∉ m.map Prod.fst) : mapAssign m key value = m ++ [(key, value)] := by
  have : m.any (fun e => decide (e.1 = key)) = false := by
    rw [List.any_eq_false]
    intro e he
    simp only [decide_eq_true_eq]
    intro hk
    exact h (List.mem_map.mpr ⟨e, he, hk⟩)
  simp [mapAssign, this]

theorem hasDatabaseAccess_iff (u : User) (dbName : String) :
    u.hasDatabaseAccess dbName = true ↔ dbName ∈ u.databases.map Prod.fst := by
  simp [User.hasDatabaseAccess, List.any_eq_true]

theorem showListing_eq (names : List String) :
    showListing names
      = "Available databases:\n" ++ String.join (names.map (fun n => "- " ++ n ++ "\n")) := by
  have h : ∀ (init : String),
      names.foldl (fun res name => res ++ "- " ++ name ++ "\n") init
        = init ++ String.join (names.map (fun n => "- " ++ n ++ "\n")) := by
    induction names with
    | nil => intro init; apply String.ext; simp [String.join]
    | cons a t ih =>
      intro init
      rw [List.foldl_cons, ih]
      apply String.ext
      simp [string_join_data, List.append_assoc]
  exact h _

theorem executeQuery_show (dis : Nat → Fin 36) (s : State) (u : User)
    (hu : s.currentUser = some u) :
    executeQuery dis s "show" = (.ok (showListing (u.databases.map Prod.fst)), s) := by
  have hq : normalizeQuery "show" = some "show" := by decide
  have h5 : ¬ (substr (toLowerStr "show") 0 5 = .ok "login") := by decide
  have hl : toLowerStr "show" = "show" := by decide
  unfold executeQuery
  simp only [hq]
  rw [if_neg h5]
  simp only [hu]
  rw [if_pos hl]
  rfl

/-! ## C7: create database, then show -/

theorem state_with_same (s : State) (u : User) (hu : s.currentUser = some u) :
    { s with currentUser := some u, fs := s.fs, heap := s.heap } = s := by
  cases s
  simp only at hu
  subst hu
  rfl

theorem handleCreateDatabase_existing (s : State) (u : User) (rest : String)
    (hu : s.currentUser = some u) (h : trim rest ∈ u.databases.map Prod.fst) :
    handleCreateDatabase s u rest = (.ok "Failed to create database", s) := by
  have hacc := (hasDatabaseAccess_iff u (trim rest)).mpr h
  simp only [handleCreateDatabase, User.createDatabase, hacc, if_true]
  rw [state_with_same s u hu]
  rfl

theorem handleCreateDatabase_new (s : State) (u : User) (rest : String)
    (h : trim rest ∉ u.databases.map Prod.fst) :
    (handleCreateDatabase s u rest).2.currentUser
      = some { u with databases := u.databases ++ [(trim rest, s.heap.length)] } := by
  have hacc : u.hasDatabaseAccess (trim rest) = false := by
    cases hb : u.hasDatabaseAccess (trim rest) with
    | false => rfl
    | true => exact absurd ((hasDatabaseAccess_iff u (trim rest)).mp hb) h
  have hcd : (u.createDatabase (trim rest) s.fs s.heap).2.1
      = { u with databases := u.databases ++ [(trim rest, s.heap.length)] } := by
    simp [User.createDatabase, hacc, mapAssign_new _ _ _ h]
  unfold handleCreateDatabase
  by_cases hr : (u.createDatabase (trim rest) s.fs s.heap).1 = true
  · simp only [hr, if_true, hcd]
  · rw [Bool.not_eq_true] at hr
    simp only [hr, hcd]
    rfl

theorem plainName_parts (name : String) (h : isPlainName name = true) :
    ∃ (c l : Char) (rest : List Char), name.data = c :: rest ∧ c ∉ trimSet
      ∧ (c :: rest).getLast? = some l ∧ l ∉ trimSet ∧ l ≠ ';' := by
  unfold isPlainName at h
  cases hd : name.data with
  | nil => rw [hd] at h; simp at h
  | cons c rest =>
    rw [hd] at h
    cases hl : (c :: rest).getLast? with
    | none => rw [hl] at h; simp at h
    | some l =>
      rw [hl] at h
      simp only [List.head?_cons, Bool.and_eq_true, decide_eq_true_eq] at h
      exact ⟨c, l, rest, rfl, h.1.1, hl, h.1.2, h.2⟩

/-- How executeQuery reads the line `create <name>` for a plain name. -/
theorem create_line_reads_name (name : String) (h : isPlainName name = true) :
    normalizeQuery ("create " ++ name) = some ("create " ++ name)
      ∧ substr (toLowerStr ("create " ++ name)) 0 6 = .ok "create"
      ∧ substrFrom ("create " ++ name) 7 = .ok name
      ∧ trim name = name := by
  obtain ⟨c, l, rest, hdata, hc, hlast, hl, hsemi⟩ := plainName_parts name h
  have hq : ("create " ++ name).data = 'c' :: ("reate ".data ++ c :: rest) := by
    rw [String.data_append, hdata]; rfl
  have hqlast : ('c' :: ("reate ".data ++ c :: rest)).getLast? = some l := by
    rw [← hlast]
    simp [List.getLast?_cons_cons, List.getLast?_append]
  refine ⟨normalizeQuery_eq_self _ 'c' l _ hq (by decide) hqlast hl hsemi, ?_, ?_,
    trim_eq_self name c l rest hdata hc hlast hl⟩
  · rw [substr_zero]
    simp only [toLowerStr, hq]
    rfl
  · have hlen : ¬ (7 > ("create " ++ name).length) := by
      show ¬ (7 > ("create " ++ name).data.length)
      rw [hq]; simp
    simp only [substrFrom, hlen, if_false, hq]
    congr 1
    apply String.ext
    rw [hdata]; rfl

/-- C7: in a session with a user and no open database, for every name that a
command line can carry: when the name is not in the user's database set,
`create <name>` leaves a user for whom `show` returns the listing of a set in
which the name occurs exactly once and every other name as often as before
(so the names listed before are each still listed once); when the name is in
the set already, `create <name>` fails and leaves the whole state, the set
included, as it was. -/
theorem create_then_show_lists_once (dis : Nat → Fin 36) (s : State) (u : User) (name : String)
    (hu : s.currentUser = some u) (hnodb : s.currentDatabase = none)
    (hname : isPlainName name = true) :
    (name ∉ u.databases.map Prod.fst →
      ∃ u', (executeQuery dis s ("create " ++ name)).2.currentUser = some u'
        ∧ executeQuery dis (executeQuery dis s ("create " ++ name)).2 "show"
            = (.ok (showListing (u'.databases.map Prod.fst)),
                (executeQuery dis s ("create " ++ name)).2)
        ∧ (u'.databases.map Prod.fst).count name = 1
        ∧ ∀ n, n ≠ name →
            (u'.databases.map Prod.fst).count n = (u.databases.map Prod.fst).count n)
    ∧ (name ∈ u.databases.map Prod.fst →
        executeQuery dis s ("create " ++ name) = (.ok "Failed to create database", s)
        ∧ executeQuery dis s "show" = (.ok (showListing (u.databases.map Prod.fst)), s)) := by
  obtain ⟨hq, hkw, hrest, htrim⟩ := create_line_reads_name name hname
  have hrun := executeQuery_create_database dis s _ _ _ u hq hkw hrest hu hnodb
  constructor
  · intro hnew
    have hnew' : trim name ∉ u.databases.map Prod.fst := by rw [htrim]; exact hnew
    have hu' := handleCreateDatabase_new s u name hnew'
    rw [htrim] at hu'
    refine ⟨_, by rw [hrun]; exact hu', ?_, ?_, ?_⟩
    · exact executeQuery_show dis _ _ (by rw [hrun]; exact hu')
    · simp [List.count_eq_zero_of_not_mem hnew]
    · intro n hn
      simp [List.count_singleton, hn]
  · intro hold
    have hold' : trim name ∈ u.databases.map Prod.fst := by rw [htrim]; exact hold
    exact ⟨by rw [hrun]; exact handleCreateDatabase_existing s u name hu hold',
      executeQuery_show dis s u hu⟩

/-- Witness of C7: `create shop` after the login of admin, whose set holds
`default`; and `create default`. -/
theorem create_then_show_lists_once_witness :
    ((runQueries sampleDraws freshState ["login"]).2.currentUser
        = some { name := "admin", password := "admin", databases := [("default", 0)] })
    ∧ (runQueries sampleDraws freshState ["login", "create shop", "show"]).1
        = [.ok "Successfully logged in as admin", .ok "Database 'shop' created successfully",
           .ok "Available databases:\n- default\n- shop\n"]
    ∧ (runQueries sampleDraws freshState ["login", "create default", "show"]).1
        = [.ok "Successfully logged in as admin", .ok "Failed to create database",
           .ok "Available databases:\n- default\n"]
    ∧ ((∃ u', (executeQuery sampleDraws (runQueries sampleDraws freshState ["login"]).2
                ("create " ++ "shop")).2.currentUser = some u'
          ∧ executeQuery sampleDraws (executeQuery sampleDraws
                (runQueries sampleDraws freshState ["login"]).2 ("create " ++ "shop")).2 "show"
              = (.ok (showListing (u'.databases.map Prod.fst)),
                  (executeQuery sampleDraws (runQueries sampleDraws freshState ["login"]).2
                    ("create " ++ "shop")).2)
          ∧ (u'.databases.map Prod.fst).count "shop" = 1
          ∧ ∀ n, n ≠ "shop" →
              (u'.databases.map Prod.fst).count n
                = (([("default", 0)] : List (String × Nat)).map Prod.fst).count n)) :=
  ⟨by decide, by decide, by decide,
    (create_then_show_lists_once sampleDraws (runQueries sampleDraws freshState ["login"]).2
      { name := "admin", password := "admin", databases := [("default", 0)] } "shop"
      (by decide) (by decide) (by decide)).1 (by decide)⟩

/-! ## C8: login -/

/-- C1 (the code at the failing input): on the first run, after `login` as
admin, `create shop`, `open shop`, `create table items (name, price)` and
`insert into items (widget, 9.99)`, the file `database/admin/shop/items.csv`
holds the header `unique_id,name,price` and the row `<id>,widget,9.99`, yet
`select from items` returns "Failed to open table file": handleSelect opens
`shop/items.csv`, a path that names no file. -/
theorem select_after_insert_fails_to_open :
    QueryHelper.new emptyFS ["admin", "admin"] = .ok freshState
    ∧ (runQueries sampleDraws freshState
          ["login", "create shop", "open shop", "create table items (name, price)"]).2
        = shopState
    ∧ (runQueries sampleDraws shopState
          ["insert into items (widget, 9.99)", "select from items"]).1
        = [.ok "", .ok "Failed to open table file"]
    ∧ (runQueries sampleDraws shopState
          ["insert into items (widget, 9.99)", "select from items"]).2.fs.openRead
            "database/admin/shop/items.csv"
        = some "unique_id,name,price\n3ahov29gnu18,widget,9.99\n"
    ∧ (runQueries sampleDraws shopState
          ["insert into items (widget, 9.99)", "select from items"]).2.fs.openRead
            "shop/items.csv"
        = none := by
  refine ⟨by decide, by decide, by decide, by decide, by decide⟩

/-- C6 (the code at the failing input): once `login` has changed the user
while a database stays open, a table is registered in the open database and
its backing file exists, yet `drop` returns "Table file not found" and
changes nothing, because handleDropTable looks for the file under the name
of the current user.  So for `t` in the database `x` made before any login
(backing file `database//x/t.csv`, sought at `database/admin/x/t.csv`), and
so for `memo` in the database `notes` of `bob` after a login as admin
(backing file `database/bob/notes/memo.csv`, sought at
`database/admin/notes/memo.csv`). -/
theorem drop_table_after_relogin_finds_no_file :
    (mainLogin (runQueries sampleDraws freshState
          ["create x", "open x", "create table t (a)"]).2
        = (.ok "Successfully logged in as admin", reloginState)
      ∧ (reloginState.heap[0]?.bind (fun db => db.getTable "t"))
          = some { name := "t", schema := ["a"], filePath := "database//x/t.csv" }
      ∧ reloginState.fs.openRead "database//x/t.csv" = some "unique_id,a\n"
      ∧ executeQuery sampleDraws reloginState "drop t"
          = (.ok "Table file not found", reloginState)
      ∧ reloginState.fs.fsExists "database/admin/x/t.csv" = false)
    ∧ (QueryHelper.new twoUsersFS ["bob", "pw", "admin", "admin"] = .ok twoUsersStart
      ∧ (mainLogin twoUsersStart).1 = .ok "Successfully logged in as bob"
      ∧ (executeQuery sampleDraws (mainLogin twoUsersStart).2 "open notes").1
          = .ok "Opened database 'notes'\nAvailable tables:\n- memo\n"
      ∧ (mainLogin (executeQuery sampleDraws (mainLogin twoUsersStart).2 "open notes").2).1
          = .ok "Successfully logged in as admin"
      ∧ secondLoginState.currentDatabase = some 0
      ∧ (secondLoginState.heap[0]?.bind (fun db => db.getTable "memo"))
          = some { name := "memo", schema := ["text"],
                   filePath := "database/bob/notes/memo.csv" }
      ∧ secondLoginState.fs.openRead "database/bob/notes/memo.csv" = some "unique_id,text\n"
      ∧ executeQuery sampleDraws secondLoginState "drop memo"
          = (.ok "Table file not found", secondLoginState)) := by
  refine ⟨⟨by decide, by decide, by decide, by decide, by decide⟩,
    ⟨by decide, by decide, by decide, by decide, by decide, by decide, by decide, by decide⟩⟩

/-- C9 (the code at the failing input): the constructor of QueryHelper makes
`currentUser` a new `User`, so the test `!currentUser` never holds.  In the
new session of the first run `show` returns a listing, and `create x` makes a
database and writes the file `account/.csv`; neither returns
"Not logged in. Please login first.". -/
theorem fresh_session_is_not_rejected :
    QueryHelper.new emptyFS ["admin", "admin"] = .ok freshState
    ∧ executeQuery sampleDraws freshState "show" = (.ok "Available databases:\n", freshState)
    ∧ (executeQuery sampleDraws freshState "create x").1
        = .ok "Database 'x' created successfully"
    ∧ (executeQuery sampleDraws freshState "create x").2.currentUser
        = some { name := "", password := "", databases := [("x", 0)] }
    ∧ freshState.fs.openRead "account/.csv" = none
    ∧ (executeQuery sampleDraws freshState "create x").2.fs.openRead "account/.csv"
        = some "\nx\n"
    ∧ (executeQuery sampleDraws freshState "select from t").1
        = .ok "No database opened. Use 'open <database>' first." := by
  refine ⟨by decide, by decide, by decide, by decide, by decide, by decide, by decide⟩

/-- C10 (the code at the failing input): a bare keyword makes executeQuery
raise `std::out_of_range` from an unchecked `substr`, in place of returning a
string: `create`, `open` and `drop` in any session with a user, and
`insert into`, `delete from`, `select from` and `create table` once a
database is open. -/
theorem bare_keyword_raises_out_of_range :
    executeQuery sampleDraws freshState "create" = (.raised .out_of_range, freshState)
    ∧ executeQuery sampleDraws freshState "open" = (.raised .out_of_range, freshState)
    ∧ executeQuery sampleDraws freshState "drop" = (.raised .out_of_range, freshState)
    ∧ executeQuery sampleDraws shopState "create" = (.raised .out_of_range, shopState)
    ∧ executeQuery sampleDraws shopState "insert into" = (.raised .out_of_range, shopState)
    ∧ executeQuery sampleDraws shopState "delete from" = (.raised .out_of_range, shopState)
    ∧ executeQuery sampleDraws shopState "select from" = (.raised .out_of_range, shopState)
    ∧ executeQuery sampleDraws shopState "create table" = (.raised .out_of_range, shopState)
    ∧ executeQuery sampleDraws shopState "insert into items"
        = (.ok "Invalid syntax. Use: insert into table_name (value1, value2, ...)", shopState) := by
  refine ⟨by decide, by decide, by decide, by decide, by decide, by decide, by decide,
    by decide, by decide⟩

/-! ## What `drop <table>` does when the file is under the current user's name -/

theorem endsWithSlash_csv (pre : String) : endsWithSlash (pre ++ ".csv") = false := by
  have h : (pre ++ ".csv").data.getLast? = some 'v' := by
    rw [String.data_append]
    show (pre.data ++ ['.', 'c', 's', 'v']).getLast? = some 'v'
    simp [List.getLast?_append]
  simp only [endsWithSlash, h]
  decide

theorem content_remove_file (fs : FS) (path : String)
    (hfile : fs.isFile (pathComponents path) = true) :
    (fs.remove path).1 = .ok true
      ∧ (fs.remove path).2.content (pathComponents path) = none
      ∧ (∀ p, p ≠ pathComponents path → (fs.remove path).2.content p = fs.content p)
      ∧ (fs.remove path).2.dirs = fs.dirs := by
  simp only [FS.remove, hfile, if_true]
  refine ⟨trivial, ?_, ?_, trivial⟩
  · simp only [FS.content, FS.isDir]
    split
    · rfl
    · rw [find_filter_self]; rfl
  · intro p hp
    simp only [FS.content, FS.isDir]
    split
    · rfl
    · rw [find_filter_ne _ _ _ hp]

theorem getTable_filter_same (tables : List Table) (name : String) :
    (tables.filter (fun t => decide (t.name ≠ name))).find? (fun t => decide (t.name = name))
      = none := by
  induction tables with
  | nil => rfl
  | cons t ts ih =>
    by_cases h : t.name = name
    · rw [List.filter_cons_of_neg (by simp [h]), ih]
    · rw [List.filter_cons_of_pos (by simp [h]), List.find?_cons_of_neg _ (by simp [h]), ih]

theorem getTable_filter_other (tables : List Table) (name other : String) (h : other ≠ name) :
    (tables.filter (fun t => decide (t.name ≠ name))).find? (fun t => decide (t.name = other))
      = tables.find? (fun t => decide (t.name = other)) := by
  induction tables with
  | nil => rfl
  | cons t ts ih =>
    by_cases hn : t.name = name
    · have ho : ¬ t.name = other := fun e => h (e.symm.trans hn)
      rw [List.filter_cons_of_neg (by simp [hn]), List.find?_cons_of_neg _ (by simp [ho]), ih]
    · rw [List.filter_cons_of_pos (by simp [hn])]
      by_cases ho : t.name = other
      · rw [List.find?_cons_of_pos _ (by simp [ho]), List.find?_cons_of_pos _ (by simp [ho])]
      · rw [List.find?_cons_of_neg _ (by simp [ho]), List.find?_cons_of_neg _ (by simp [ho]), ih]

/-- When the table is registered and a regular file lies at
`database/<current user>/<db>/<name>.csv`, handleDropTable removes that file
and no other, and takes every table of that name, and no other, from the
list of the open database. -/
theorem handleDropTable_removes (s : State) (u : User) (ptr : Nat) (db : Database)
    (tableName : String) (t : Table)
    (ht : db.getTable (trim tableName) = some t)
    (hfile : s.fs.isFile (pathComponents
      ("database/" ++ u.name ++ "/" ++ db.name ++ "/" ++ trim tableName ++ ".csv")) = true) :
    handleDropTable s u ptr db tableName
        = (.ok ("Table '" ++ trim tableName ++ "' dropped successfully"),
            { s with
              fs := (s.fs.remove
                ("database/" ++ u.name ++ "/" ++ db.name ++ "/" ++ trim tableName ++ ".csv")).2,
              heap := s.heap.set ptr
                { db with tables := db.tables.filter (fun x => x.name ≠ trim tableName) } })
    ∧ ({ db with tables := db.tables.filter (fun x => x.name ≠ trim tableName) } :
          Database).getTable (trim tableName) = none
    ∧ (∀ other, other ≠ trim tableName →
        ({ db with tables := db.tables.filter (fun x => x.name ≠ trim tableName) } :
          Database).getTable other = db.getTable other)
    ∧ (s.fs.remove
          ("database/" ++ u.name ++ "/" ++ db.name ++ "/" ++ trim tableName ++ ".csv")).2.openRead
        ("database/" ++ u.name ++ "/" ++ db.name ++ "/" ++ trim tableName ++ ".csv") = none
    ∧ (∀ p, p ≠ pathComponents
          ("database/" ++ u.name ++ "/" ++ db.name ++ "/" ++ trim tableName ++ ".csv") →
        (s.fs.remove
          ("database/" ++ u.name ++ "/" ++ db.name ++ "/" ++ trim tableName ++ ".csv")).2.content p
          = s.fs.content p) := by
  obtain ⟨hok, hgone, hothers, _⟩ := content_remove_file s.fs _ hfile
  have hslash := endsWithSlash_csv ("database/" ++ u.name ++ "/" ++ db.name ++ "/" ++ trim tableName)
  have hexists : s.fs.fsExists
      ("database/" ++ u.name ++ "/" ++ db.name ++ "/" ++ trim tableName ++ ".csv") = true := by
    simp only [FS.fsExists, hslash, hfile, Bool.or_true, Bool.false_eq_true, if_false]
  refine ⟨?_, getTable_filter_same _ _, fun other ho => getTable_filter_other _ _ _ ho, ?_,
    hothers⟩
  · simp only [handleDropTable, ht, hexists, if_true]
    generalize s.fs.remove
      ("database/" ++ u.name ++ "/" ++ db.name ++ "/" ++ trim tableName ++ ".csv") = r at hok ⊢
    obtain ⟨o, fs1⟩ := r
    simp only at hok
    subst hok
    rfl
  · have hne :
        "database/" ++ u.name ++ "/" ++ db.name ++ "/" ++ trim tableName ++ ".csv" ≠ "" := by
      intro he
      have hd := congrArg String.data he
      rw [String.data_append] at hd
      exact absurd hd (by simp)
    have hdir : s.fs.isDir (pathComponents
        ("database/" ++ u.name ++ "/" ++ db.name ++ "/" ++ trim tableName ++ ".csv")) = false := by
      cases hd : s.fs.isDir (pathComponents
          ("database/" ++ u.name ++ "/" ++ db.name ++ "/" ++ trim tableName ++ ".csv")) with
      | false => rfl
      | true => simp [FS.isFile, FS.content, hd] at hfile
    have hdir' : (s.fs.remove
        ("database/" ++ u.name ++ "/" ++ db.name ++ "/" ++ trim tableName ++ ".csv")).2.isDir
          (pathComponents
            ("database/" ++ u.name ++ "/" ++ db.name ++ "/" ++ trim tableName ++ ".csv"))
        = false := by
      simp only [FS.remove, hfile, if_true]
      exact hdir
    rw [openRead_eq_content _ _ hne hslash hdir']
    exact hgone

/-! ## C16: parseAttributeList against the splitting at every comma -/

theorem piecesBetween_ne_nil (d : Char) (s : List Char) : piecesBetween d s ≠ [] := by
  cases s with
  | nil => simp [piecesBetween]
  | cons c cs =>
    simp only [piecesBetween]
    split
    · simp
    · split <;> simp

theorem piecesBetween_length (d : Char) (s : List Char) :
    (piecesBetween d s).length = s.count d + 1 := by
  induction s with
  | nil => rfl
  | cons c cs ih =>
    by_cases hc : c = d
    · subst hc
      simp [piecesBetween, ih]
    · have hcount : (c :: cs).count d = cs.count d := by
        rw [List.count_cons]
        simp [hc]
      rw [hcount, ← ih]
      simp only [piecesBetween, hc, if_false]
      cases hp : piecesBetween d cs with
      | nil => exact absurd hp (piecesBetween_ne_nil d cs)
      | cons p ps => rfl

/-- The pieces are the splitting at the delimiter: none holds the delimiter,
and put together with the delimiter between them they give the text back. -/
theorem piecesBetween_spec (d : Char) (s : List Char) :
    (∀ p ∈ piecesBetween d s, d ∉ p)
      ∧ List.intercalate [d] (piecesBetween d s) = s := by
  induction s with
  | nil => simp [piecesBetween, List.intercalate]
  | cons c cs ih =>
    obtain ⟨p, ps, hp⟩ : ∃ p ps, piecesBetween d cs = p :: ps := by
      cases h : piecesBetween d cs with
      | nil => exact absurd h (piecesBetween_ne_nil d cs)
      | cons p ps => exact ⟨p, ps, rfl⟩
    rw [hp] at ih
    obtain ⟨hmem, hjoin⟩ := ih
    by_cases hc : c = d
    · subst hc
      simp only [piecesBetween, if_true, hp]
      constructor
      · intro q hq
        rcases List.mem_cons.mp hq with h | h
        · subst h; simp
        · exact hmem q h
      · simp only [List.intercalate, List.intersperse_cons_cons, List.flatten_cons] at hjoin ⊢
        simp only [List.nil_append, List.singleton_append, List.cons.injEq, true_and]
        exact hjoin
    · simp only [piecesBetween, hc, if_false, hp]
      constructor
      · intro q hq
        rcases List.mem_cons.mp hq with h | h
        · subst h
          intro hd
          rcases List.mem_cons.mp hd with e | e
          · exact hc e.symm
          · exact hmem p (by simp) e
        · exact hmem q (by simp [h])
      · cases ps with
        | nil =>
          simp only [List.intercalate, List.intersperse_single, List.flatten_cons,
            List.flatten_nil, List.append_nil] at hjoin ⊢
          rw [hjoin]
        | cons q qs =>
          simp only [List.intercalate, List.intersperse_cons_cons, List.flatten_cons,
            List.cons_append] at hjoin ⊢
          rw [hjoin]

/-- The tokens of the `getline` loop are the pieces between the delimiters,
but for the final piece when it is empty, that is when the text is empty or
ends in the delimiter. -/
theorem getlineAll_eq_pieces (d : Char) (s : List Char) :
    getlineAll d s
      = if s = [] ∨ s.getLast? = some d then (piecesBetween d s).dropLast
        else piecesBetween d s := by
  induction s with
  | nil => simp [getlineAll, piecesBetween]
  | cons c cs ih =>
    cases cs with
    | nil =>
      by_cases hc : c = d
      · simp [getlineAll, piecesBetween, hc]
      · simp [getlineAll, piecesBetween, hc]
    | cons e es =>
      have hcond : ((c :: e :: es) = [] ∨ (c :: e :: es).getLast? = some d)
          ↔ ((e :: es) = [] ∨ (e :: es).getLast? = some d) := by
        rw [List.getLast?_cons_cons]
        simp
      obtain ⟨p, ps, hp⟩ : ∃ p ps, piecesBetween d (e :: es) = p :: ps := by
        cases h : piecesBetween d (e :: es) with
        | nil => exact absurd h (piecesBetween_ne_nil d _)
        | cons p ps => exact ⟨p, ps, rfl⟩
      by_cases hlast : (e :: es) = [] ∨ (e :: es).getLast? = some d
      · rw [if_pos hlast, hp] at ih
        rw [if_pos (hcond.mpr hlast)]
        have hps : ps ≠ [] := by
          intro h
          rw [h] at ih
          exact getlineAll_ne_nil d (e :: es) (by simp) ih
        obtain ⟨q, qs, hq⟩ : ∃ q qs, ps = q :: qs := by
          cases ps with
          | nil => exact absurd rfl hps
          | cons q qs => exact ⟨q, qs, rfl⟩
        subst hq
        by_cases hc : c = d
        · rw [getlineAll, if_pos hc, ih, piecesBetween, if_pos hc, hp]
          rfl
        · rw [getlineAll, if_neg hc, ih, piecesBetween, if_neg hc, hp]
          rfl
      · rw [if_neg hlast, hp] at ih
        rw [if_neg (fun h => hlast (hcond.mp h))]
        by_cases hc : c = d
        · rw [getlineAll, if_pos hc, ih, piecesBetween, if_pos hc, hp]
        · rw [getlineAll, if_neg hc, ih, piecesBetween, if_neg hc, hp]

theorem parseAttributeList_paren (s : String) (hlen : s.length < 2 ^ 64) :
    parseAttributeList ("(" ++ s ++ ")") = .ok (split s ',') := by
  have hdata : ("(" ++ s ++ ")").data = '(' :: (s.data ++ [')']) := by
    simp only [String.data_append]
    rfl
  have hl : ("(" ++ s ++ ")").length = s.length + 2 := by
    show ("(" ++ s ++ ")").data.length = s.data.length + 2
    rw [hdata]
    simp
  have hcount : (s.length + 2 + 2 ^ 64 - 2) % 2 ^ 64 = s.length := by
    omega
  have hpos : ¬ (1 > s.length + 2) := by omega
  simp only [parseAttributeList, substr, hl, hpos, if_false, hcount, hdata, List.drop_succ_cons,
    List.drop_zero]
  have htake : (s.data ++ [')']).take s.length = s.data := by
    show (s.data ++ [')']).take s.data.length = s.data
    simp
  rw [htake]

/-- C16, as amended: for every string `s` (of a length that `size_t` holds),
parseAttributeList applied to `"(" + s + ")"` returns, in order and each
trimmed, the pieces obtained by splitting `s` at every comma (`k` commas give
`k + 1` pieces), except that a final empty piece is left out: when `s` is
empty or ends in a comma the last piece is not returned.  So the number of
values is one more than the number of commas unless `s` is empty or ends in
a comma, and then it is the number of commas. -/
theorem parseAttributeList_pieces (s : String) (hlen : s.length < 2 ^ 64) :
    parseAttributeList ("(" ++ s ++ ")")
        = .ok ((if s.data = [] ∨ s.data.getLast? = some ','
                then (piecesBetween ',' s.data).dropLast
                else piecesBetween ',' s.data).map (fun p => trim ⟨p⟩))
    ∧ (piecesBetween ',' s.data).length = s.data.count ',' + 1
    ∧ (∀ values, parseAttributeList ("(" ++ s ++ ")") = .ok values →
        values.length
          = if s.data = [] ∨ s.data.getLast? = some ',' then s.data.count ','
            else s.data.count ',' + 1) := by
  have hmain : parseAttributeList ("(" ++ s ++ ")")
        = .ok ((if s.data = [] ∨ s.data.getLast? = some ','
                then (piecesBetween ',' s.data).dropLast
                else piecesBetween ',' s.data).map (fun p => trim ⟨p⟩)) := by
    rw [parseAttributeList_paren s hlen, split, getlineAll_eq_pieces]
  refine ⟨hmain, piecesBetween_length _ _, ?_⟩
  intro values hv
  rw [hmain] at hv
  have hv' := Outcome.ok.inj hv
  rw [← hv', List.length_map]
  split
  · rw [List.length_dropLast, piecesBetween_length]
    rfl
  · exact piecesBetween_length _ _

/-- Witness of C16 as amended: three pieces for two commas, and one value for
the one comma of `a,`. -/
theorem parseAttributeList_pieces_witness :
    (parseAttributeList ("(" ++ "widget, 9.99 ,x" ++ ")")
        = .ok ((if "widget, 9.99 ,x".data = [] ∨ "widget, 9.99 ,x".data.getLast? = some ','
                then (piecesBetween ',' "widget, 9.99 ,x".data).dropLast
                else piecesBetween ',' "widget, 9.99 ,x".data).map (fun p => trim ⟨p⟩)))
    ∧ parseAttributeList "(widget, 9.99 ,x)" = .ok ["widget", "9.99", "x"]
    ∧ parseAttributeList "(,a,,b)" = .ok ["", "a", "", "b"]
    ∧ parseAttributeList "(a, )" = .ok ["a", ""] :=
  ⟨(parseAttributeList_pieces "widget, 9.99 ,x" (by decide)).1, by decide, by decide, by decide⟩

/-- C16 as stated fails: `a,` holds no parenthesis and one comma, its two
pieces are `a` and the empty piece, yet parseAttributeList returns the one
value `a`; and for the empty list it returns no value where the splitting
gives one empty piece. -/
theorem parseAttributeList_drops_final_empty_piece :
    parseAttributeList ("(" ++ "a," ++ ")") = .ok ["a"]
    ∧ (piecesBetween ',' "a,".data).map (fun p => trim ⟨p⟩) = ["a", ""]
    ∧ "a,".data.count ',' = 1
    ∧ parseAttributeList ("(" ++ "" ++ ")") = .ok []
    ∧ (piecesBetween ',' "".data).map (fun p => trim ⟨p⟩) = [""]
    ∧ ¬ (∀ s : String, '(' ∉ s.data → ')' ∉ s.data →
          parseAttributeList ("(" ++ s ++ ")")
            = .ok ((piecesBetween ',' s.data).map (fun p => trim ⟨p⟩))) := by
  refine ⟨by decide, by decide, by decide, by decide, by decide, ?_⟩
  intro h
  exact absurd (h "a," (by decide) (by decide)) (by decide)

/-! ## C12: initialize, then load -/

theorem getlineAll_joined (d : Char) (fs : List (List Char)) :
    ∀ (x : List Char), d ∉ x → (∀ f ∈ fs, d ∉ f) → (fs = [] → x ≠ []) →
      (∀ f, fs.getLast? = some f → f ≠ []) →
      getlineAll d (x ++ (fs.map (fun f => d :: f)).flatten) = x :: fs := by
  induction fs with
  | nil =>
    intro x hx _ hne _
    simpa using getlineAll_no_delim d x hx (hne rfl)
  | cons f rest ih =>
    intro x hx hfs _ hlast
    have hf : d ∉ f := hfs f (by simp)
    have hrest : ∀ g ∈ rest, d ∉ g := fun g hg => hfs g (by simp [hg])
    have hne' : rest = [] → f ≠ [] := by
      intro hr
      subst hr
      exact hlast f rfl
    have hlast' : ∀ g, rest.getLast? = some g → g ≠ [] := by
      intro g hg
      cases rest with
      | nil => simp at hg
      | cons r rs =>
        apply hlast g
        rw [List.getLast?_cons_cons]
        exact hg
    have hshape : x ++ ((f :: rest).map (fun f => d :: f)).flatten
        = x ++ d :: (f ++ (rest.map (fun f => d :: f)).flatten) := by
      simp
    rw [hshape, getlineAll_line d x _ hx, ih f hf hrest hne' hlast']

theorem accepted_table_is_written (t : Table) (fs : FS) (h : ( Table.initialize t fs).1 = true) :
    t.schema ≠ []
      ∧ (fs.mkdirs (pathComponents t.filePath).dropLast).2.canOpenWrite t.filePath = true
      ∧ ( Table.initialize t fs).2
          = (fs.mkdirs (pathComponents t.filePath).dropLast).2.writeFile t.filePath
              (csvLine "unique_id" t.schema) := by
  unfold Table.initialize at h ⊢
  cases hs : t.schema.isEmpty with
  | true => simp [hs] at h
  | false =>
    simp only [hs, Bool.false_eq_true, if_false] at h ⊢
    have hne : t.schema ≠ [] := by
      intro he
      rw [he] at hs
      simp at hs
    generalize fs.mkdirs (pathComponents t.filePath).dropLast = r at h ⊢
    obtain ⟨o, fs1⟩ := r
    cases o with
    | raised e => simp at h
    | ok v =>
      cases hw : fs1.canOpenWrite t.filePath with
      | false => simp [hw] at h
      | true => simp [hw, hne]

theorem openRead_writeFile (fs : FS) (path text : String) (h : fs.canOpenWrite path = true) :
    (fs.writeFile path text).openRead path = some text := by
  obtain ⟨hslash, hdir⟩ := openRead_of_canOpenWrite fs path h
  rw [openRead_eq_content _ _ (path_ne_empty_of_canOpenWrite fs _ h) hslash
    (by rw [FS.writeFile, isDir_setFile]; exact hdir)]
  exact content_setFile_same _ _ _ hdir

theorem header_line_data (schema : List String) :
    (schema.foldl (fun acc field => acc ++ "," ++ field) "unique_id").data
      = "unique_id".data ++ ((schema.map String.data).map (fun f => ',' :: f)).flatten := by
  rw [foldl_comma_data, List.map_map]
  rfl

theorem load_of_header (t : Table) (schema : List String) (fs : FS)
    (hread : fs.openRead t.filePath = some (csvLine "unique_id" schema))
    (hne : schema ≠ [])
    (hclean : ∀ f ∈ schema, ',' ∉ f.data ∧ '\n' ∉ f.data)
    (hlast : ∀ f, schema.getLast? = some f → f ≠ "") :
    t.load fs = (true, { t with schema := schema }) := by
  have hnl : '\n' ∉ (schema.foldl (fun acc field => acc ++ "," ++ field) "unique_id").data := by
    rw [header_line_data]
    simp only [List.mem_append, List.mem_flatten, List.mem_map]
    rintro (h | ⟨l, ⟨d, ⟨f, hf, rfl⟩, rfl⟩, hmem⟩)
    · exact absurd h (by decide)
    · rcases List.mem_cons.mp hmem with hc | hc
      · exact absurd hc (by decide)
      · exact (hclean f hf).2 hc
  have hlines : fileLines (csvLine "unique_id" schema)
      = [schema.foldl (fun acc field => acc ++ "," ++ field) "unique_id"] := by
    simp only [fileLines, csvLine, String.data_append]
    rw [getlineAll_line _ _ _ hnl]
    simp [getlineAll]
  have hfields : getlineAll ','
      (schema.foldl (fun acc field => acc ++ "," ++ field) "unique_id").data
        = "unique_id".data :: schema.map String.data := by
    rw [header_line_data]
    apply getlineAll_joined
    · decide
    · intro f hf
      obtain ⟨g, hg, rfl⟩ := List.mem_map.mp hf
      exact (hclean g hg).1
    · intro h
      exact absurd (List.map_eq_nil_iff.mp h) hne
    · intro f hf
      rw [List.getLast?_map] at hf
      cases hg : schema.getLast? with
      | none => rw [hg] at hf; simp at hf
      | some g =>
        rw [hg] at hf
        simp only [Option.map_some', Option.some.injEq] at hf
        intro hnil
        apply hlast g hg
        apply String.ext
        rw [hf, hnil]
  unfold Table.load
  simp only [hread, hlines, List.headD_cons, hfields, List.drop_succ_cons, List.drop_zero,
    List.map_map]
  have hmap : schema.map (String.mk ∘ String.data) = schema := by
    conv_rhs => rw [← List.map_id schema]
    rfl
  rw [hmap]
  cases schema with
  | nil => exact absurd rfl hne
  | cons a as => rfl

/-- C12, as amended: for every schema that initialize accepts whose field
names hold no comma and no newline and whose last field name is not empty,
load on the file that initialize wrote returns true and recovers exactly that
schema, the same names in the same order; so does load on any table object
with the same file path, such as the one that directory rediscovery builds
with an empty schema. -/
theorem load_recovers_schema (t : Table) (fs : FS)
    (hclean : ∀ f ∈ t.schema, ',' ∉ f.data ∧ '\n' ∉ f.data)
    (hlast : ∀ f, t.schema.getLast? = some f → f ≠ "")
    (hinit : ( Table.initialize t fs).1 = true) :
    t.schema ≠ []
    ∧ ( Table.initialize t fs).2.openRead t.filePath
        = some (String.intercalate "," ("unique_id" :: t.schema) ++ "\n")
    ∧ t.load ( Table.initialize t fs).2 = (true, t)
    ∧ (∀ t' : Table, t'.filePath = t.filePath →
        t'.load ( Table.initialize t fs).2 = (true, { t' with schema := t.schema })
          ∧ (t'.load ( Table.initialize t fs).2).2.schema.length = t.schema.length) := by
  obtain ⟨hne, hopen, hfs⟩ := accepted_table_is_written t fs hinit
  have hread : ( Table.initialize t fs).2.openRead t.filePath
      = some (csvLine "unique_id" t.schema) := by
    rw [hfs]
    exact openRead_writeFile _ _ _ hopen
  refine ⟨hne, by rw [hread, csvLine_eq], ?_, ?_⟩
  · exact load_of_header t t.schema _ hread hne hclean hlast
  · intro t' hpath
    have h := load_of_header t' t.schema _ (by rw [hpath]; exact hread) hne hclean hlast
    exact ⟨h, by rw [h]⟩

/-- Witness of C12 as amended: the table `items (name, price)` written into
the directory of `shop` and read back, also into a table object with an
empty schema. -/
theorem load_recovers_schema_witness :
    ( Table.initialize itemsTable shopState.fs).1 = true
    ∧ itemsTable.load ( Table.initialize itemsTable shopState.fs).2 = (true, itemsTable)
    ∧ (Table.new "items" [] "database/admin/shop/").load
          ( Table.initialize itemsTable shopState.fs).2
        = (true, itemsTable)
    ∧ ( Table.initialize itemsTable shopState.fs).2.openRead "database/admin/shop/items.csv"
        = some "unique_id,name,price\n" :=
  ⟨by decide,
    (load_recovers_schema itemsTable shopState.fs (by decide) (by decide) (by decide)).2.2.1,
    by decide, by decide⟩

/-- C12 as stated fails: `create table t (a, )` gives the schema of the two
names `a` and the empty name, which hold no comma and no newline; initialize
accepts it and writes `unique_id,a,`, from which load recovers the one name
`a`.  And for the schema of the empty name alone, which `create table u ( )`
gives, load on the file that initialize wrote returns false. -/
theorem load_loses_final_empty_field :
    parseAttributeList "(a, )" = .ok ["a", ""]
    ∧ finalEmptyNameTable.schema = ["a", ""]
    ∧ ( Table.initialize finalEmptyNameTable shopState.fs).1 = true
    ∧ ( Table.initialize finalEmptyNameTable shopState.fs).2.openRead
          "database/admin/shop/t.csv" = some "unique_id,a,\n"
    ∧ finalEmptyNameTable.load
          ( Table.initialize finalEmptyNameTable shopState.fs).2
        = (true, { name := "t", schema := ["a"], filePath := "database/admin/shop/t.csv" })
    ∧ parseAttributeList "( )" = .ok [""]
    ∧ emptyNameTable.schema = [""]
    ∧ ( Table.initialize emptyNameTable shopState.fs).1 = true
    ∧ (emptyNameTable.load
          ( Table.initialize emptyNameTable shopState.fs).2).1 = false := by
  refine ⟨by decide, by decide, by decide, by decide, by decide, by decide, by decide,
    by decide, by decide⟩

/-! ## C13: lines that need an open database -/

theorem executeQuery_no_database (dis : Nat → Fin 36) (s : State) (query q : String) (u : User)
    (hu : s.currentUser = some u) (hnodb : s.currentDatabase = none)
    (hq : normalizeQuery query = some q)
    (hlogin : ¬ substr (toLowerStr q) 0 5 = .ok "login")
    (hshow : ¬ toLowerStr q = "show")
    (hcreate : ¬ substr (toLowerStr q) 0 6 = .ok "create")
    (hopen : ¬ substr (toLowerStr q) 0 4 = .ok "open")
    (hdrop : ¬ substr (toLowerStr q) 0 4 = .ok "drop") :
    executeQuery dis s query
      = (.ok "No database opened. Use 'open <database>' first.", s) := by
  unfold executeQuery
  simp only [hq]
  rw [if_neg hlogin]
  simp only [hu]
  rw [if_neg hshow, if_neg hcreate, if_neg hopen, if_neg hdrop]
  simp only [hnodb]

/-- C13, as amended: in a session with a user and no open database, for
every line whose trimmed text is not empty and which, once a final semicolon
is removed and letters are lowered, does not start with login, create, open
or drop and is not `show`, executeQuery returns
"No database opened. Use 'open <database>' first." and leaves the whole
state, session and files, as it was; in particular for every line that
starts with `insert into`, `delete from` or `select from`. -/
theorem no_database_opened_result (dis : Nat → Fin 36) (s : State) (query q : String) (u : User)
    (hu : s.currentUser = some u) (hnodb : s.currentDatabase = none)
    (hq : normalizeQuery query = some q) :
    (¬ substr (toLowerStr q) 0 5 = .ok "login" → ¬ toLowerStr q = "show" →
      ¬ substr (toLowerStr q) 0 6 = .ok "create" → ¬ substr (toLowerStr q) 0 4 = .ok "open" →
      ¬ substr (toLowerStr q) 0 4 = .ok "drop" →
      executeQuery dis s query
        = (.ok "No database opened. Use 'open <database>' first.", s))
    ∧ (substr (toLowerStr q) 0 11 = .ok "insert into"
        ∨ substr (toLowerStr q) 0 11 = .ok "delete from"
        ∨ substr (toLowerStr q) 0 11 = .ok "select from" →
      executeQuery dis s query
        = (.ok "No database opened. Use 'open <database>' first.", s)) := by
  refine ⟨executeQuery_no_database dis s query q u hu hnodb hq, ?_⟩
  intro hkw
  have key : ∀ kw : String, substr (toLowerStr q) 0 11 = .ok kw →
      (kw = "insert into" ∨ kw = "delete from" ∨ kw = "select from") →
      executeQuery dis s query
        = (.ok "No database opened. Use 'open <database>' first.", s) := by
    intro kw h hshape
    have h5 := substr_zero_shorter _ _ 11 5 h (by decide)
    have h6 := substr_zero_shorter _ _ 11 6 h (by decide)
    have h4 := substr_zero_shorter _ _ 11 4 h (by decide)
    apply executeQuery_no_database dis s query q u hu hnodb hq
    · rw [h5]; rcases hshape with e | e | e <;> subst e <;> decide
    · intro e
      rw [e] at h
      rcases hshape with e' | e' | e' <;> subst e' <;> revert h <;> decide
    · rw [h6]; rcases hshape with e | e | e <;> subst e <;> decide
    · rw [h4]; rcases hshape with e | e | e <;> subst e <;> decide
    · rw [h4]; rcases hshape with e | e | e <;> subst e <;> decide
  rcases hkw with h | h | h
  · exact key _ h (Or.inl rfl)
  · exact key _ h (Or.inr (Or.inl rfl))
  · exact key _ h (Or.inr (Or.inr rfl))

/-- Witness of C13 as amended: after the login of admin on the first run,
an insert line, a select line in capitals with a semicolon, and a line of
no known command. -/
theorem no_database_opened_result_witness :
    (runQueries sampleDraws freshState ["login"]).2 = adminState
    ∧ executeQuery sampleDraws adminState "insert into items (widget, 9.99)"
        = (.ok "No database opened. Use 'open <database>' first.", adminState)
    ∧ executeQuery sampleDraws adminState "  SELECT FROM items 2 last;"
        = (.ok "No database opened. Use 'open <database>' first.", adminState)
    ∧ executeQuery sampleDraws adminState "help"
        = (.ok "No database opened. Use 'open <database>' first.", adminState) :=
  ⟨by decide,
    (no_database_opened_result sampleDraws adminState "insert into items (widget, 9.99)"
      "insert into items (widget, 9.99)"
      { name := "admin", password := "admin", databases := [("default", 0)] }
      (by decide) (by decide) (by decide)).2 (Or.inl (by decide)),
    (no_database_opened_result sampleDraws adminState "  SELECT FROM items 2 last;"
      "SELECT FROM items 2 last"
      { name := "admin", password := "admin", databases := [("default", 0)] }
      (by decide) (by decide) (by decide)).2 (Or.inr (Or.inr (by decide))),
    (no_database_opened_result sampleDraws adminState "help" "help"
      { name := "admin", password := "admin", databases := [("default", 0)] }
      (by decide) (by decide) (by decide)).1 (by decide) (by decide) (by decide) (by decide)
      (by decide)⟩

/-- C13 as stated fails: with admin logged in and no database open, the empty
line and the line of blanks start with none of the keywords and are not
`show`, yet executeQuery returns "Empty query"; and the lines `SHOW` and
`show;`, which are not the text `show`, return the listing, since the
command is matched on the trimmed line without its final semicolon and in
lower case. -/
theorem blank_line_is_an_empty_query :
    adminState.currentDatabase = none
    ∧ executeQuery sampleDraws adminState "" = (.ok "Empty query", adminState)
    ∧ executeQuery sampleDraws adminState "   " = (.ok "Empty query", adminState)
    ∧ (executeQuery sampleDraws adminState "").1
        ≠ .ok "No database opened. Use 'open <database>' first."
    ∧ executeQuery sampleDraws adminState "SHOW"
        = (.ok "Available databases:\n- default\n", adminState)
    ∧ executeQuery sampleDraws adminState "show;"
        = (.ok "Available databases:\n- default\n", adminState) := by
  refine ⟨by decide, by decide, by decide, by decide, by decide, by decide⟩

/-! ## C11, C14, C15: where the code leaves the specification -/

/-- C11 (the code at the failing input): createTable makes no test for a
table of the same name.  From the database `shop` as its constructor builds
it on the first run, two calls of createTable with the name `items` both
return true and leave two entries named `items`; typed as commands,
`create table items (x)` on the open database that holds `items` adds the
second entry and replaces the content of the file by the new header. -/
theorem createTable_adds_second_entry :
    Database.new "shop" "admin" bootFS
        = { name := "shop", owner := "admin", tables := [], basePath := "database/admin/shop/" }
    ∧ ((Database.new "shop" "admin" bootFS).createTable "items" ["name", "price"] bootFS).1
        = true
    ∧ (((Database.new "shop" "admin" bootFS).createTable "items" ["name", "price"]
          bootFS).2.1.createTable "items" ["x"]
          ((Database.new "shop" "admin" bootFS).createTable "items" ["name", "price"]
            bootFS).2.2).1 = true
    ∧ ((((Database.new "shop" "admin" bootFS).createTable "items" ["name", "price"]
          bootFS).2.1.createTable "items" ["x"]
          ((Database.new "shop" "admin" bootFS).createTable "items" ["name", "price"]
            bootFS).2.2).2.1.tables.map (fun t => t.name)) = ["items", "items"]
    ∧ (executeQuery sampleDraws shopState "create table items (x)").1
        = .ok "Table 'items' created successfully"
    ∧ ((executeQuery sampleDraws shopState "create table items (x)").2.heap[1]?.map
          (fun db => db.tables))
        = some [{ name := "items", schema := ["name", "price"],
                  filePath := "database/admin/shop/items.csv" },
                { name := "items", schema := ["x"],
                  filePath := "database/admin/shop/items.csv" }]
    ∧ (executeQuery sampleDraws shopState "create table items (x)").2.fs.openRead
          "database/admin/shop/items.csv" = some "unique_id,x\n" := by
  refine ⟨by decide, by decide, by decide, by decide, by decide, by decide, by decide⟩

/-- C14 (the code at the failing input): with admin logged in on the first
run and no database open, `default` is in the set of admin and its directory
`database/admin/default` exists.  `drop default` removes the directory, but
returns "Failed to Drop" and leaves the set as it was: `show` still lists
`default` and `open default` opens it. -/
theorem drop_database_keeps_the_name :
    (runQueries sampleDraws freshState ["login"]).2 = adminState
    ∧ adminState.fs.fsExists "database/admin/default" = true
    ∧ (executeQuery sampleDraws adminState "drop default").1 = .ok "Failed to Drop"
    ∧ (executeQuery sampleDraws adminState "drop default").2.fs.fsExists
          "database/admin/default" = false
    ∧ (executeQuery sampleDraws adminState "drop default").2.currentUser
        = adminState.currentUser
    ∧ (runQueries sampleDraws adminState ["drop default", "show", "open default"]).1
        = [.ok "Failed to Drop", .ok "Available databases:\n- default\n",
           .ok "Opened database 'default'\nAvailable tables:\n"] := by
  refine ⟨by decide, by decide, by decide, by decide, by decide, by decide⟩

/-- C15 (the code at the failing input): loadDatabases adds to the map that
is there.  With bob logged in (set `notes`), a successful login as admin on
the same `User`, which is what handleLogin runs, leaves the set `notes`,
`default`, although line 2 of the credential file of admin lists `default`
alone; the same login on a new `User` gives `default` alone. -/
theorem login_keeps_earlier_databases :
    twoUsersFS.openRead "account/admin/admin.csv" = some "admin\ndefault\n"
    ∧ (({ name := "bob", password := "pw", databases := [("notes", 0)] } : User).login
          "admin" "admin" twoUsersFS [Database.new "notes" "bob" twoUsersFS]).1 = .ok true
    ∧ ((({ name := "bob", password := "pw", databases := [("notes", 0)] } : User).login
          "admin" "admin" twoUsersFS [Database.new "notes" "bob" twoUsersFS]).2.1.databases.map
            Prod.fst) = ["notes", "default"]
    ∧ ((({ name := "", password := "", databases := [] } : User).login
          "admin" "admin" twoUsersFS []).2.1.databases.map Prod.fst) = ["default"]
    ∧ (runQueries sampleDraws twoUsersStart ["login", "show", "login", "show"]).1
        = [.ok "Successfully logged in as bob", .ok "Available databases:\n- notes\n",
           .ok "Successfully logged in as admin",
           .ok "Available databases:\n- notes\n- default\n"] := by
  refine ⟨by decide, by decide, by decide, by decide, by decide⟩

/-! ## C8: login -/

theorem ne_of_isDigit (c x : Char) (h : c.isDigit = true) (hx : x.isDigit = false) : c ≠ x := by
  intro e
  rw [e, hx] at h
  cases h

theorem isDigit_not_trimSet (c : Char) (h : c.isDigit = true) : c ∉ trimSet := by
  intro hm
  simp only [trimSet, List.mem_cons, List.mem_singleton, List.not_mem_nil, or_false] at hm
  rcases hm with e | e | e | e
  · exact ne_of_isDigit c _ h (by decide) e
  · exact ne_of_isDigit c _ h (by decide) e
  · exact ne_of_isDigit c _ h (by decide) e
  · exact ne_of_isDigit c _ h (by decide) e

theorem isDigit_not_isspace (c : Char) (h : c.isDigit = true) : isspace c = false := by
  have h1 := ne_of_isDigit c ' ' h (by decide)
  have h2 := ne_of_isDigit c '\t' h (by decide)
  have h3 := ne_of_isDigit c '\n' h (by decide)
  have h4 := ne_of_isDigit c '\r' h (by decide)
  have h5 := ne_of_isDigit c (Char.ofNat 11) h (by decide)
  have h6 := ne_of_isDigit c (Char.ofNat 12) h (by decide)
  simp [isspace, h1, h2, h3, h4, h5, h6]

theorem isDecimal_parts (tok : String) (h : isDecimal tok = true) :
    ∃ (c : Char) (rest : List Char), tok.data = c :: rest ∧ ∀ x ∈ c :: rest, x.isDigit = true := by
  simp only [isDecimal, Bool.and_eq_true, decide_eq_true_eq, List.all_eq_true] at h
  cases hd : tok.data with
  | nil => exact absurd hd h.1
  | cons c rest =>
    refine ⟨c, rest, rfl, ?_⟩
    intro x hx
    exact h.2 x (by rw [hd]; exact hx)

theorem takeWhile_all {α : Type} (p : α → Bool) (l : List α) (h : ∀ x ∈ l, p x = true) :
    l.takeWhile p = l := by
  induction l with
  | nil => rfl
  | cons a t ih =>
    rw [List.takeWhile_cons, h a (by simp), if_pos rfl, ih (fun x hx => h x (by simp [hx]))]

theorem foldl_digits_cast (l : List Char) (acc : Nat) :
    l.foldl (fun (a : Int) d => 10 * a + ((d.toNat - 48 : Nat) : Int)) (acc : Int)
      = ((l.foldl (fun a d => 10 * a + (d.toNat - 48)) acc : Nat) : Int) := by
  induction l generalizing acc with
  | nil => rfl
  | cons d t ih =>
    simp only [List.foldl_cons]
    rw [← ih]
    congr 1

/-- What `std::stoi` makes of a string of decimal digits: its value when
this is an `int`, and `std::out_of_range` otherwise. -/
theorem stoi_decimal (tok : String) (h : isDecimal tok = true) :
    stoi tok
      = if decimalValue tok < 2 ^ 31 then .ok (decimalValue tok : Int)
        else .raised .out_of_range := by
  obtain ⟨c, rest, hdata, hall⟩ := isDecimal_parts tok h
  have hc : c.isDigit = true := hall c (by simp)
  have hdrop : (c :: rest).dropWhile isspace = c :: rest := by
    rw [List.dropWhile_cons, isDigit_not_isspace c hc]
    rfl
  have hsign : (match c :: rest with
      | '-' :: r => (true, r)
      | '+' :: r => (false, r)
      | r => (false, r)) = ((false, c :: rest) : Bool × List Char) := by
    split
    · rename_i heq
      exact absurd (List.cons.inj heq).1 (ne_of_isDigit c '-' hc (by decide))
    · rename_i heq
      exact absurd (List.cons.inj heq).1 (ne_of_isDigit c '+' hc (by decide))
    · rfl
  have hval : (decimalValue tok : Int)
      = (c :: rest).foldl (fun (a : Int) d => 10 * a + ((d.toNat - 48 : Nat) : Int)) 0 := by
    have := foldl_digits_cast (c :: rest) 0
    simp only [Nat.cast_zero] at this
    rw [this, decimalValue, hdata]
  unfold stoi
  simp only [hdata, hdrop, hsign, takeWhile_all Char.isDigit (c :: rest) hall, List.isEmpty_cons,
    Bool.false_eq_true, if_false, ← hval]
  by_cases hlt : decimalValue tok < 2 ^ 31
  · have hno : ¬ ((decimalValue tok : Int) < -(2 : Int) ^ 31
        ∨ (decimalValue tok : Int) > (2 : Int) ^ 31 - 1) := by omega
    rw [if_neg hno, if_pos hlt]
  · have hyes : ((decimalValue tok : Int) < -(2 : Int) ^ 31
        ∨ (decimalValue tok : Int) > (2 : Int) ^ 31 - 1) := by omega
    rw [if_pos hyes, if_neg hlt]

theorem decimal_ne_last (tok : String) (h : isDecimal tok = true) : tok ≠ "last" := by
  obtain ⟨c, rest, hdata, hall⟩ := isDecimal_parts tok h
  intro e
  rw [e] at hdata
  have hc : c = 'l' := (List.cons.inj hdata).1.symm
  exact ne_of_isDigit c 'l' (hall c (by simp)) (by decide) hc

/-- How handleSelect reads `[limit] [last]` when the limit is typed in
decimal digits: the value when it is an `int`; when it is larger `stoi`
raises and there is no limit. -/
theorem parseLimitLast_decimal (tableName tok : String) (h : isDecimal tok = true) :
    parseLimitLast [tableName, tok, "last"]
        = (if decimalValue tok < 2 ^ 31 then ((decimalValue tok : Int), true) else (-1, false))
    ∧ parseLimitLast [tableName, tok]
        = (if decimalValue tok < 2 ^ 31 then ((decimalValue tok : Int), false) else (-1, false))
    ∧ parseLimitLast [tableName] = (-1, false) := by
  have hne := decimal_ne_last tok h
  have hst := stoi_decimal tok h
  by_cases hlt : decimalValue tok < 2 ^ 31
  · rw [if_pos hlt] at hst
    rw [if_pos hlt, if_pos hlt]
    refine ⟨?_, ?_, rfl⟩
    · simp [parseLimitLast, hst]
    · simp [parseLimitLast, hst]
  · rw [if_neg hlt] at hst
    rw [if_neg hlt, if_neg hlt]
    refine ⟨?_, ?_, rfl⟩
    · simp [parseLimitLast, hst, hne]
    · simp [parseLimitLast, hst, hne]

theorem decimal_last_char (tok : String) (h : isDecimal tok = true) :
    ∃ l : Char, tok.data.getLast? = some l ∧ l.isDigit = true := by
  obtain ⟨c, rest, hdata, hall⟩ := isDecimal_parts tok h
  rw [hdata]
  cases hl : (c :: rest).getLast? with
  | none => simp at hl
  | some l => exact ⟨l, rfl, hall l (List.mem_of_mem_getLast? hl)⟩

theorem decimal_is_word (tok : String) (h : isDecimal tok = true) :
    ' ' ∉ tok.data ∧ trim tok = tok ∧ tok.data ≠ [] := by
  obtain ⟨c, rest, hdata, hall⟩ := isDecimal_parts tok h
  obtain ⟨l, hlast, hl⟩ := decimal_last_char tok h
  refine ⟨?_, ?_, ?_⟩
  · intro hm
    rw [hdata] at hm
    exact ne_of_isDigit _ ' ' (hall _ hm) (by decide) rfl
  · rw [hdata] at hlast
    exact trim_eq_self tok c l rest hdata (isDigit_not_trimSet c (hall c (by simp))) hlast
      (isDigit_not_trimSet l hl)
  · rw [hdata]; simp

/-- The tokens that `split` makes of a name and of words, each after one
blank, when none of them holds a blank and `trim` leaves them as they are. -/
theorem split_words (name : String) (words : List String) (hname : isPlainName name = true)
    (hsp : ' ' ∉ name.data)
    (hwords : ∀ w ∈ words, ' ' ∉ w.data ∧ trim w = w ∧ w.data ≠ []) :
    split ⟨name.data ++ ((words.map String.data).map (fun f => ' ' :: f)).flatten⟩ ' '
      = name :: words := by
  obtain ⟨c, l, rest, hdata, hc, hlast, hl, _⟩ := plainName_parts name hname
  have hg := getlineAll_joined ' ' (words.map String.data) name.data hsp
    (by
      intro f hf
      obtain ⟨w, hw, rfl⟩ := List.mem_map.mp hf
      exact (hwords w hw).1)
    (by intro _; rw [hdata]; simp)
    (by
      intro f hf
      have hm := List.mem_of_mem_getLast? hf
      obtain ⟨w, hw, rfl⟩ := List.mem_map.mp hm
      exact (hwords w hw).2.2)
  unfold split
  rw [hg]
  simp only [List.map_cons, List.map_map]
  have h1 : trim ⟨name.data⟩ = name := trim_eq_self name c l rest hdata hc hlast hl
  rw [h1]
  congr 1
  have h2 : ∀ ws : List String, (∀ w ∈ ws, trim w = w) →
      ws.map ((fun token => trim ⟨token⟩) ∘ String.data) = ws := by
    intro ws
    induction ws with
    | nil => intro _; rfl
    | cons a t ih =>
      intro hw
      rw [List.map_cons, ih (fun w hm => hw w (by simp [hm]))]
      congr 1
      exact hw a (by simp)
  exact h2 words (fun w hw => (hwords w hw).2.1)

/-- How executeQuery reads a line `select from <rest>` whose last character
is neither white space nor a semicolon, in a session with a user and an open
database: it hands `<rest>` to handleSelect. -/
theorem executeQuery_select (dis : Nat → Fin 36) (s : State) (u : User) (ptr : Nat)
    (db : Database) (rest : String) (l : Char)
    (hu : s.currentUser = some u) (hdb : s.currentDatabase = some ptr)
    (hheap : s.heap[ptr]? = some db)
    (hlast : rest.data.getLast? = some l) (hl : l ∉ trimSet) (hsemi : l ≠ ';') :
    executeQuery dis s ("select from " ++ rest) = handleSelect s db rest := by
  have hq : ("select from " ++ rest).data = 's' :: ("elect from ".data ++ rest.data) := by
    rw [String.data_append]; rfl
  have hqlast : ('s' :: ("elect from ".data ++ rest.data)).getLast? = some l := by
    cases hr : rest.data with
    | nil => rw [hr] at hlast; simp at hlast
    | cons a t =>
      rw [hr] at hlast
      rw [← hlast]
      simp [List.getLast?_cons_cons, List.getLast?_append]
  have hnorm := normalizeQuery_eq_self _ 's' l _ hq (by decide) hqlast hl hsemi
  have hkw : substr (toLowerStr ("select from " ++ rest)) 0 11 = .ok "select from" := by
    rw [substr_zero]
    simp only [toLowerStr, hq]
    rfl
  have hparams : substrFrom ("select from " ++ rest) 12 = .ok rest := by
    have hlen : ¬ (12 > ("select from " ++ rest).length) := by
      show ¬ (12 > ("select from " ++ rest).data.length)
      rw [hq]; simp
    simp only [substrFrom, hlen, if_false, hq]
    rfl
  rw [executeQuery_eleven dis s _ _ "select from" u ptr hnorm hkw (Or.inr (Or.inr rfl)) hu hdb]
  rw [if_neg (by decide), if_neg (by decide), orRaise_ok _ _ _ _ hparams,
    withDatabase_some _ _ _ _ hheap]

/-- What handleSelect returns once `split` has given the table name and the
words after it, the table is found and its file is read. -/
theorem handleSelect_reads (s : State) (db : Database) (t : Table)
    (params tableName content : String) (more : List String)
    (hsplit : split params ' ' = tableName :: more)
    (htable : db.getTable tableName = some t)
    (hfile : s.fs.openRead (db.name ++ "/" ++ tableName ++ ".csv") = some content) :
    handleSelect s db params
      = (.ok (selectWindow ((fileLines content).headD "") ((fileLines content).drop 1)
          (parseLimitLast (tableName :: more)).1 (parseLimitLast (tableName :: more)).2), s) := by
  unfold handleSelect
  simp only [hsplit, List.isEmpty_cons, Bool.false_eq_true, if_false, List.getD_cons_zero,
    htable, hfile]

theorem digitChar_value (k : Nat) (h : k < 10) :
    (Nat.digitChar k).isDigit = true ∧ (Nat.digitChar k).toNat - 48 = k := by
  interval_cases k <;> decide

theorem toDigitsCore_digits (fuel : Nat) :
    ∀ (n : Nat) (ds : List Char), n < fuel → (∀ x ∈ ds, x.isDigit = true) →
      (∀ x ∈ Nat.toDigitsCore 10 fuel n ds, x.isDigit = true)
      ∧ Nat.toDigitsCore 10 fuel n ds ≠ []
      ∧ (Nat.toDigitsCore 10 fuel n ds).foldl (fun acc d => 10 * acc + (d.toNat - 48)) 0
          = ds.foldl (fun acc d => 10 * acc + (d.toNat - 48)) n := by
  induction fuel with
  | zero => intro n ds h; omega
  | succ fuel ih =>
    intro n ds hn hds
    have hd := digitChar_value (n % 10) (Nat.mod_lt _ (by decide))
    have hds' : ∀ x ∈ Nat.digitChar (n % 10) :: ds, x.isDigit = true := by
      intro x hx
      rcases List.mem_cons.mp hx with e | e
      · rw [e]; exact hd.1
      · exact hds x e
    unfold Nat.toDigitsCore
    by_cases h0 : n / 10 = 0
    · simp only [h0, if_true]
      refine ⟨hds', by simp, ?_⟩
      rw [List.foldl_cons, hd.2]
      congr 1
      omega
    · simp only [h0, if_false]
      obtain ⟨a, b, c⟩ := ih (n / 10) (Nat.digitChar (n % 10) :: ds) (by omega) hds'
      refine ⟨a, b, ?_⟩
      rw [c, List.foldl_cons, hd.2]
      congr 1
      omega

/-- The decimal numeral of a natural number is a string of digits that
denotes it. -/
theorem decimal_numeral (n : Nat) :
    isDecimal (toString n) = true ∧ decimalValue (toString n) = n := by
  obtain ⟨a, b, c⟩ := toDigitsCore_digits (n + 1) n [] (by omega) (by simp)
  have hdata : (toString n).data = Nat.toDigitsCore 10 (n + 1) n [] := rfl
  refine ⟨?_, ?_⟩
  · simp only [isDecimal, Bool.and_eq_true, decide_eq_true_eq, List.all_eq_true, hdata]
    exact ⟨b, a⟩
  · rw [decimalValue, hdata, c]; rfl

theorem getLast?_append_of_ne_nil (xs ys : List Char) (h : ys ≠ []) :
    (xs ++ ys).getLast? = ys.getLast? := by
  rw [List.getLast?_append]
  cases hl : ys.getLast? with
  | none => exact absurd (List.getLast?_eq_none_iff.mp hl) h
  | some v => rfl

/-- What a line `select from <name> <limit> last` returns, whatever the
digits of the limit: the window of the value when it is an `int`, and all
rows when it is larger (`stoi` raises and no limit is left). -/
theorem executeQuery_select_last (dis : Nat → Fin 36) (s : State) (u : User) (ptr : Nat)
    (db : Database) (t : Table) (name tok content : String)
    (hu : s.currentUser = some u) (hdb : s.currentDatabase = some ptr)
    (hheap : s.heap[ptr]? = some db)
    (hname : isPlainName name = true) (hsp : ' ' ∉ name.data) (htok : isDecimal tok = true)
    (htable : db.getTable name = some t)
    (hfile : s.fs.openRead (db.name ++ "/" ++ name ++ ".csv") = some content) :
    executeQuery dis s ("select from " ++ name ++ " " ++ tok ++ " last")
        = handleSelect s db (name ++ " " ++ tok ++ " last")
      ∧ handleSelect s db (name ++ " " ++ tok ++ " last")
        = (.ok (selectWindow ((fileLines content).headD "") ((fileLines content).drop 1)
            (if decimalValue tok < 2 ^ 31 then (decimalValue tok : Int) else -1)
            (decide (decimalValue tok < 2 ^ 31))), s) := by
  have hq : "select from " ++ name ++ " " ++ tok ++ " last"
      = "select from " ++ (name ++ " " ++ tok ++ " last") := by
    simp only [String.append_assoc]
  have hlast : (name ++ " " ++ tok ++ " last").data.getLast? = some 't' := by
    rw [String.data_append, getLast?_append_of_ne_nil _ _ (by decide)]
    rfl
  have hsplit : split (name ++ " " ++ tok ++ " last") ' ' = [name, tok, "last"] := by
    have h := split_words name [tok, "last"] hname hsp (by
      intro w hw
      rcases List.mem_cons.mp hw with e | e
      · rw [e]; exact decimal_is_word tok htok
      · rw [List.mem_singleton.mp e]; decide)
    rw [← h]
    congr 1
    apply String.ext
    simp [String.data_append]
  refine ⟨?_, ?_⟩
  · rw [hq]
    exact executeQuery_select dis s u ptr db _ 't' hu hdb hheap hlast (by decide) (by decide)
  · rw [handleSelect_reads s db t _ name content [tok, "last"] hsplit htable hfile,
      (parseLimitLast_decimal name tok htok).1]
    by_cases hlt : decimalValue tok < 2 ^ 31
    · simp only [hlt, if_true, decide_True]
    · simp only [hlt, if_false, decide_False]

/-- What a line `select from <name> <limit>` and a line `select from <name>`
return. -/
theorem executeQuery_select_first (dis : Nat → Fin 36) (s : State) (u : User) (ptr : Nat)
    (db : Database) (t : Table) (name tok content : String)
    (hu : s.currentUser = some u) (hdb : s.currentDatabase = some ptr)
    (hheap : s.heap[ptr]? = some db)
    (hname : isPlainName name = true) (hsp : ' ' ∉ name.data) (htok : isDecimal tok = true)
    (htable : db.getTable name = some t)
    (hfile : s.fs.openRead (db.name ++ "/" ++ name ++ ".csv") = some content) :
    executeQuery dis s ("select from " ++ name ++ " " ++ tok)
        = handleSelect s db (name ++ " " ++ tok)
      ∧ handleSelect s db (name ++ " " ++ tok)
        = (.ok (selectWindow ((fileLines content).headD "") ((fileLines content).drop 1)
            (if decimalValue tok < 2 ^ 31 then (decimalValue tok : Int) else -1) false), s)
      ∧ executeQuery dis s ("select from " ++ name) = handleSelect s db name
      ∧ handleSelect s db name
        = (.ok (selectWindow ((fileLines content).headD "") ((fileLines content).drop 1)
            (-1) false), s) := by
  obtain ⟨c, l, rest, hdata, hc, hnlast, hl, hsemi⟩ := plainName_parts name hname
  obtain ⟨d, hdlast, hd⟩ := decimal_last_char tok htok
  have hq : "select from " ++ name ++ " " ++ tok = "select from " ++ (name ++ " " ++ tok) := by
    simp only [String.append_assoc]
  have hlast : (name ++ " " ++ tok).data.getLast? = some d := by
    rw [String.data_append, getLast?_append_of_ne_nil _ _ (decimal_is_word tok htok).2.2]
    exact hdlast
  have hsplit : split (name ++ " " ++ tok) ' ' = [name, tok] := by
    have h := split_words name [tok] hname hsp (by
      intro w hw
      rw [List.mem_singleton.mp hw]; exact decimal_is_word tok htok)
    rw [← h]
    congr 1
    apply String.ext
    simp [String.data_append]
  have hsplit0 : split name ' ' = [name] := by
    have h := split_words name [] hname hsp (by intro w hw; simp at hw)
    rw [← h]
    congr 1
    apply String.ext
    simp
  refine ⟨?_, ?_, ?_, ?_⟩
  · rw [hq]
    exact executeQuery_select dis s u ptr db _ d hu hdb hheap hlast (isDigit_not_trimSet d hd)
      (ne_of_isDigit d ';' hd (by decide))
  · rw [handleSelect_reads s db t _ name content [tok] hsplit htable hfile,
      (parseLimitLast_decimal name tok htok).2.1]
    by_cases hlt : decimalValue tok < 2 ^ 31
    · simp only [hlt, if_true, decide_True]
    · simp only [hlt, if_false, decide_False]
  · have hnl : name.data.getLast? = some l := by rw [hdata]; exact hnlast
    exact executeQuery_select dis s u ptr db name l hu hdb hheap hnl hl hsemi
  · rw [handleSelect_reads s db t _ name content [] hsplit0 htable hfile]
    rfl

/-! ## C2, C3: the rows that select returns -/

/-- C2: in a session with a user and an open database `db`, for a table
`name` that `db` holds and whose file handleSelect reads into a header and
`M` data rows, and for every limit typed in decimal digits with value `N`:
executeQuery hands the line `select from <name> <limit> last` to
handleSelect, which returns the header followed by exactly the final `N` rows
in their original order when `M > N`, and by all `M` rows in their original
order when `M <= N`, and leaves the state as it was.  The same holds of the
row-window step for every `int` `N >= 0`, and every `N` is the value of its
decimal numeral.  `M` is within `int`, the range in which the counting loop
of the source is defined. -/
theorem select_last_window (dis : Nat → Fin 36) (s : State) (u : User) (ptr : Nat)
    (db : Database) (t : Table) (name tok content header : String) (rows : List String)
    (hu : s.currentUser = some u) (hdb : s.currentDatabase = some ptr)
    (hheap : s.heap[ptr]? = some db)
    (hname : isPlainName name = true) (hsp : ' ' ∉ name.data) (htok : isDecimal tok = true)
    (htable : db.getTable name = some t)
    (hfile : s.fs.openRead (db.name ++ "/" ++ name ++ ".csv") = some content)
    (hheader : (fileLines content).headD "" = header)
    (hrows : (fileLines content).drop 1 = rows)
    (hM : rows.length < 2 ^ 31) :
    executeQuery dis s ("select from " ++ name ++ " " ++ tok ++ " last")
        = handleSelect s db (name ++ " " ++ tok ++ " last")
      ∧ (decimalValue tok < rows.length →
          executeQuery dis s ("select from " ++ name ++ " " ++ tok ++ " last")
              = (.ok (headerThenRows header (rows.drop (rows.length - decimalValue tok))), s)
            ∧ (rows.drop (rows.length - decimalValue tok)).length = decimalValue tok
            ∧ rows.drop (rows.length - decimalValue tok) <:+ rows)
      ∧ (rows.length ≤ decimalValue tok →
          executeQuery dis s ("select from " ++ name ++ " " ++ tok ++ " last")
            = (.ok (headerThenRows header rows), s))
      ∧ (∀ N : Nat, N < 2 ^ 31 →
          selectWindow header rows (N : Int) true
            = headerThenRows header (rows.drop (rows.length - N)))
      ∧ (∀ N : Nat, isDecimal (toString N) = true ∧ decimalValue (toString N) = N) := by
  obtain ⟨h1, h2⟩ := executeQuery_select_last dis s u ptr db t name tok content hu hdb hheap
    hname hsp htok htable hfile
  rw [hheader, hrows] at h2
  have key : executeQuery dis s ("select from " ++ name ++ " " ++ tok ++ " last")
      = (.ok (headerThenRows header (rows.drop (rows.length - decimalValue tok))), s) := by
    rw [h1, h2]
    by_cases hlt : decimalValue tok < 2 ^ 31
    · rw [if_pos hlt, decide_eq_true hlt, selectWindow_last header rows _ hlt hM]
    · rw [if_neg hlt, selectWindow_all]
      have h0 : rows.length - decimalValue tok = 0 := by omega
      rw [h0, List.drop_zero]
  refine ⟨h1, fun h => ⟨key, ?_, List.drop_suffix _ _⟩, fun h => ?_,
    fun N hN => selectWindow_last header rows N hN hM, decimal_numeral⟩
  · rw [List.length_drop]; omega
  · rw [key]
    have h0 : rows.length - decimalValue tok = 0 := by omega
    rw [h0, List.drop_zero]

/-- Witness of C2: the table `items` with four rows; the last two, nine asked
of four, and a limit that is no `int`. -/
theorem select_last_window_witness :
    executeQuery sampleDraws selectState ("select from " ++ "items" ++ " " ++ "2" ++ " last")
        = (.ok (headerThenRows "unique_id,name,price" ["r3,c,3", "r4,d,4"]), selectState)
    ∧ executeQuery sampleDraws selectState "select from items 2 last"
        = (.ok "unique_id,name,price\nr3,c,3\nr4,d,4\n", selectState)
    ∧ executeQuery sampleDraws selectState "select from items 9 last"
        = (.ok "unique_id,name,price\nr1,a,1\nr2,b,2\nr3,c,3\nr4,d,4\n", selectState)
    ∧ executeQuery sampleDraws selectState "select from items 0 last"
        = (.ok "unique_id,name,price\n", selectState)
    ∧ executeQuery sampleDraws selectState "select from items 4294967298 last"
        = (.ok "unique_id,name,price\nr1,a,1\nr2,b,2\nr3,c,3\nr4,d,4\n", selectState) :=
  ⟨((select_last_window sampleDraws selectState adminUser 1 shopDb itemsTable "items" "2"
      "unique_id,name,price\nr1,a,1\nr2,b,2\nr3,c,3\nr4,d,4\n" "unique_id,name,price"
      ["r1,a,1", "r2,b,2", "r3,c,3", "r4,d,4"] (by decide) (by decide) (by decide) (by decide)
      (by decide) (by decide) (by decide) (by decide) (by decide) (by decide)
      (by decide)).2.1 (by decide)).1,
    by decide, by decide, by decide, by decide⟩

/-- C3: in a session with a user and an open database `db`, for a table
`name` that `db` holds and whose file handleSelect reads into a header and
`M` data rows: for every limit typed in decimal digits with value `N`,
executeQuery hands the line `select from <name> <limit>` to handleSelect,
which returns the header followed by exactly the first `min(N, M)` rows in
their original order; and the line `select from <name>` returns the header
followed by all `M` rows.  Both leave the state as it was.  The same holds of
the row-window step for every `int` `N >= 0`, and every `N` is the value of
its decimal numeral.  `M` is within `int`. -/
theorem select_first_window (dis : Nat → Fin 36) (s : State) (u : User) (ptr : Nat)
    (db : Database) (t : Table) (name tok content header : String) (rows : List String)
    (hu : s.currentUser = some u) (hdb : s.currentDatabase = some ptr)
    (hheap : s.heap[ptr]? = some db)
    (hname : isPlainName name = true) (hsp : ' ' ∉ name.data) (htok : isDecimal tok = true)
    (htable : db.getTable name = some t)
    (hfile : s.fs.openRead (db.name ++ "/" ++ name ++ ".csv") = some content)
    (hheader : (fileLines content).headD "" = header)
    (hrows : (fileLines content).drop 1 = rows)
    (hM : rows.length < 2 ^ 31) :
    executeQuery dis s ("select from " ++ name ++ " " ++ tok)
        = handleSelect s db (name ++ " " ++ tok)
      ∧ executeQuery dis s ("select from " ++ name ++ " " ++ tok)
        = (.ok (headerThenRows header (rows.take (min (decimalValue tok) rows.length))), s)
      ∧ (rows.take (min (decimalValue tok) rows.length)).length
        = min (decimalValue tok) rows.length
      ∧ rows.take (min (decimalValue tok) rows.length) <+: rows
      ∧ executeQuery dis s ("select from " ++ name) = handleSelect s db name
      ∧ executeQuery dis s ("select from " ++ name) = (.ok (headerThenRows header rows), s)
      ∧ (∀ N : Nat, N < 2 ^ 31 →
          selectWindow header rows (N : Int) false
            = headerThenRows header (rows.take (min N rows.length)))
      ∧ selectWindow header rows (-1) false = headerThenRows header rows
      ∧ (∀ N : Nat, isDecimal (toString N) = true ∧ decimalValue (toString N) = N) := by
  obtain ⟨h1, h2, h3, h4⟩ := executeQuery_select_first dis s u ptr db t name tok content hu hdb
    hheap hname hsp htok htable hfile
  rw [hheader, hrows] at h2 h4
  refine ⟨h1, ?_, ?_, List.take_prefix _ _, h3, ?_,
    fun N hN => selectWindow_first header rows N hN hM, selectWindow_all _ _ _, decimal_numeral⟩
  · rw [h1, h2]
    by_cases hlt : decimalValue tok < 2 ^ 31
    · rw [if_pos hlt, selectWindow_first header rows _ hlt hM]
    · rw [if_neg hlt, selectWindow_all]
      have h0 : min (decimalValue tok) rows.length = rows.length := by omega
      rw [h0, List.take_length]
  · rw [List.length_take]; omega
  · rw [h3, h4, selectWindow_all]

/-- Witness of C3: the table `items` with four rows; the first two, nine
asked of four, none, a limit that is no `int`, and no limit. -/
theorem select_first_window_witness :
    executeQuery sampleDraws selectState ("select from " ++ "items" ++ " " ++ "2")
        = (.ok (headerThenRows "unique_id,name,price" ["r1,a,1", "r2,b,2"]), selectState)
    ∧ executeQuery sampleDraws selectState "select from items 2"
        = (.ok "unique_id,name,price\nr1,a,1\nr2,b,2\n", selectState)
    ∧ executeQuery sampleDraws selectState "select from items 9"
        = (.ok "unique_id,name,price\nr1,a,1\nr2,b,2\nr3,c,3\nr4,d,4\n", selectState)
    ∧ executeQuery sampleDraws selectState "select from items 0"
        = (.ok "unique_id,name,price\n", selectState)
    ∧ executeQuery sampleDraws selectState "select from items 4294967298"
        = (.ok "unique_id,name,price\nr1,a,1\nr2,b,2\nr3,c,3\nr4,d,4\n", selectState)
    ∧ executeQuery sampleDraws selectState "select from items"
        = (.ok "unique_id,name,price\nr1,a,1\nr2,b,2\nr3,c,3\nr4,d,4\n", selectState) :=
  ⟨(select_first_window sampleDraws selectState adminUser 1 shopDb itemsTable "items" "2"
      "unique_id,name,price\nr1,a,1\nr2,b,2\nr3,c,3\nr4,d,4\n" "unique_id,name,price"
      ["r1,a,1", "r2,b,2", "r3,c,3", "r4,d,4"] (by decide) (by decide) (by decide) (by decide)
      (by decide) (by decide) (by decide) (by decide) (by decide) (by decide)
      (by decide)).2.1,
    by decide, by decide, by decide, by decide, by decide⟩

end NoSqlite
